import Mathlib

set_option maxRecDepth 100000

open scoped Classical

noncomputable section

/-!
Verification development for the category-colors palette optimizer.

The Rust sources are embedded shallowly: pure functions become Lean
functions over real numbers (f32 arithmetic is idealized as exact real
arithmetic), stateful code becomes explicit state passing, random draws
become explicit input streams, and fallible code (assertions, unwraps)
returns Option where a claim depends on the failure behavior.

The perceptual color distance (CIEDE2000, from the external palette
crate) is not code of this repository; every definition that needs it
takes an abstract oracle `dist : Color -> Color -> Real` as a parameter.
-/

/-- An sRGB color: a triple of floating-point channel values (r, g, b),
from `pub type Color = Rgb<Srgb, f32>` in src/color.rs. -/
abbrev Color : Type := ℝ × ℝ × ℝ

/-- From src/convert.rs: `triple_to_array`. -/
def triple_to_array (t : ℝ × ℝ × ℝ) : Fin 3 → ℝ :=
  fun i => if i = 0 then t.1 else if i = 1 then t.2.1 else t.2.2

/-- From src/convert.rs: `array_to_triple`. -/
def array_to_triple (a : Fin 3 → ℝ) : ℝ × ℝ × ℝ :=
  (a 0, a 1, a 2)

/-- From src/color.rs: `const WIGGLE: f32 = 0.05`. -/
def WIGGLE : ℝ := 0.05

/-- From src/color.rs and src/main.rs: `random_nearby_color`.  The two RNG
draws are passed explicitly: `channel` is the result of `rng.gen_range(0..3)`
and `offset` the result of `rng.gen_range(-WIGGLE..=WIGGLE)`.  The clamp is
Rust `f32::clamp(v, 0., 1.)`. -/
def random_nearby_color (c : Color) (channel : Fin 3) (offset : ℝ) : Color :=
  let rgb := triple_to_array c
  let old_val := rgb channel
  let new_val := min (max (old_val + offset) 0) 1
  array_to_triple (Function.update rgb channel new_val)

/-- Modelled from the spec: the sRGB-to-linear gamma decoding performed by
`LinearRgb::from_encoding` of the external palette crate (the standard sRGB
transfer function); this code is not part of the repository. -/
def srgb_to_linear (x : ℝ) : ℝ :=
  if x ≤ 0.04045 then x / 12.92 else ((x + 0.055) / 1.055) ^ (2.4 : ℝ)

/-- Modelled from the spec: the linear-to-sRGB gamma encoding performed by
`Color::from_encoding` of the external palette crate (the standard sRGB
transfer function, with no clamping); this code is not part of the
repository. -/
def linear_to_srgb (x : ℝ) : ℝ :=
  if x ≤ 0.0031308 then 12.92 * x else 1.055 * x ^ ((1 : ℝ) / 2.4) - 0.055

/-- From src/color.rs and src/main.rs: the `Vision` enum. -/
inductive Vision where
  | Default
  | Protanopia
  | Protonomaly
  | Deuteranopia
  | Deuteranomaly
  | Tritanopia
  | Tritanomaly
  | Achromatopsia
  | Achromatomaly
deriving DecidableEq

/-- A 3x3 matrix stored row-major as in the Rust `[f32; 9]` literals,
field `e
k` holding index k of the array. -/
structure Mat3 where
  (e0 e1 e2 e3 e4 e5 e6 e7 e8 : ℝ)

/-- From src/brettel.rs: `struct BrettelParams`. -/
structure BrettelParams where
  rgb_cvd_from_rgb_1 : Mat3
  rgb_cvd_from_rgb_2 : Mat3
  separation_plane_normal : ℝ × ℝ × ℝ

/-- From src/brettel.rs (and duplicated in src/main.rs): `brettel_params`. -/
def brettel_params : Vision → Option BrettelParams
  | .Default | .Achromatomaly | .Achromatopsia => none
  | .Protanopia | .Protonomaly => some
      { rgb_cvd_from_rgb_1 :=
          ⟨0.1451, 1.20165, -0.34675, 0.10447, 0.85316, 0.04237, 0.00429, -0.00603, 1.00174⟩
        rgb_cvd_from_rgb_2 :=
          ⟨0.14115, 1.16782, -0.30897, 0.10495, 0.8573, 0.03776, 0.00431, -0.00586, 1.00155⟩
        separation_plane_normal := (0.00048, 0.00416, -0.00464) }
  | .Deuteranomaly | .Deuteranopia => some
      { rgb_cvd_from_rgb_1 :=
          ⟨0.36198, 0.86755, -0.22953, 0.26099, 0.64512, 0.09389, -0.01975, 0.02686, 0.99289⟩
        rgb_cvd_from_rgb_2 :=
          ⟨0.37009, 0.8854, -0.25549, 0.25767, 0.63782, 0.10451, -0.0195, 0.02741, 0.99209⟩
        separation_plane_normal := (-0.00293, -0.00645, 0.00938) }
  | .Tritanomaly | .Tritanopia => some
      { rgb_cvd_from_rgb_1 :=
          ⟨1.01354, 0.14268, -0.15622, -0.01181, 0.87561, 0.13619, 0.07707, 0.81208, 0.11085⟩
        rgb_cvd_from_rgb_2 :=
          ⟨0.93337, 0.19999, -0.13336, 0.05809, 0.82565, 0.11626, -0.37923, 1.13825, 0.24098⟩
        separation_plane_normal := (0.0396, -0.02831, -0.01129) }

/-- Row-major 3x3 matrix-vector product, as written out index by index in
`brettel` in src/brettel.rs. -/
def mat_vec (m : Mat3) (v : ℝ × ℝ × ℝ) : ℝ × ℝ × ℝ :=
  (m.e0 * v.1 + m.e1 * v.2.1 + m.e2 * v.2.2,
   m.e3 * v.1 + m.e4 * v.2.1 + m.e5 * v.2.2,
   m.e6 * v.1 + m.e7 * v.2.1 + m.e8 * v.2.2)

/-- From src/brettel.rs (and duplicated in src/main.rs): `brettel`.  The
`none` branch is the Rust `expect` panic; `brettel` is only reached for the
six dichromacy variants, whose params are `some`. -/
def brettel (c_srgb : Color) (v : Vision) (severity : ℝ) : Color :=
  match brettel_params v with
  | none => c_srgb
  | some params =>
    let rgb : ℝ × ℝ × ℝ :=
      (srgb_to_linear c_srgb.1, srgb_to_linear c_srgb.2.1, srgb_to_linear c_srgb.2.2)
    let n := params.separation_plane_normal
    let dot_with_sep_plane := rgb.1 * n.1 + rgb.2.1 * n.2.1 + rgb.2.2 * n.2.2
    let m := if 0 ≤ dot_with_sep_plane then params.rgb_cvd_from_rgb_1
             else params.rgb_cvd_from_rgb_2
    let rgb_cvd := mat_vec m rgb
    let out : ℝ × ℝ × ℝ :=
      (rgb_cvd.1 * severity + rgb.1 * (1 - severity),
       rgb_cvd.2.1 * severity + rgb.2.1 * (1 - severity),
       rgb_cvd.2.2 * severity + rgb.2.2 * (1 - severity))
    (linear_to_srgb out.1, linear_to_srgb out.2.1, linear_to_srgb out.2.2)

/-- Rust `f32::round`: the nearest integer, ties rounding away from zero. -/
def fround (x : ℝ) : ℝ :=
  if 0 ≤ x then ((⌊x + 1 / 2⌋ : ℤ) : ℝ) else ((⌈x - 1 / 2⌉ : ℤ) : ℝ)

/-- From src/brettel.rs (and duplicated in src/main.rs):
`monochrome_with_severity`.  Note the luminance is passed through
`f32::round`, exactly as in the source. -/
def monochrome_with_severity (c : Color) (severity : ℝ) : Color :=
  let z := fround (c.1 * 0.299 + c.2.1 * 0.587 + c.2.2 * 0.114)
  (z * severity + (1 - severity) * c.1,
   z * severity + (1 - severity) * c.2.1,
   z * severity + (1 - severity) * c.2.2)

/-- Modelled from the spec: the claim reads the luminance as rounded "to the
nearest representable channel value"; channels here are real-valued, so every
in-range luminance is itself representable and that rounding is the identity.
This definition follows the claim's words, for comparison with the source's
`monochrome_with_severity`. -/
def monochrome_with_severity_spec (c : Color) (severity : ℝ) : Color :=
  let z := c.1 * 0.299 + c.2.1 * 0.587 + c.2.2 * 0.114
  (z * severity + (1 - severity) * c.1,
   z * severity + (1 - severity) * c.2.1,
   z * severity + (1 - severity) * c.2.2)

/-- From src/brettel.rs (and duplicated in src/main.rs): `brettel_function`. -/
def brettel_function (c : Color) (v : Vision) : Color :=
  match v with
  | .Default => c
  | .Achromatomaly => monochrome_with_severity c 0.6
  | .Achromatopsia => monochrome_with_severity c 1.0
  | .Protanopia | .Deuteranopia | .Tritanopia => brettel c v 1.0
  | .Protonomaly | .Deuteranomaly | .Tritanomaly => brettel c v 0.6

/-- From src/cost.rs: `enum ContrastNeed`. -/
inductive ContrastNeed where
  | Background
  | Text
deriving DecidableEq

/-- From src/cost.rs: `ContrastNeed::minimum_ratio`. -/
def ContrastNeed.minimum_ratio : ContrastNeed → ℝ
  | .Background => 3
  | .Text => 4.5

/-- From src/color.rs: `struct ContrastRatio`. -/
structure ContrastRatio where
  value : ℝ
  need : ContrastNeed

/-- From src/color.rs: `ContrastRatio::new` (reciprocates values below 1). -/
def ContrastRatio.new (value : ℝ) (need : ContrastNeed) : ContrastRatio :=
  if value < 1 then ⟨1 / value, need⟩ else ⟨value, need⟩

/-- From src/color.rs: `ContrastRatio::cost`.  The leading range check is the
source's `assert!(1. <= ratio && ratio <= 21.)`, modelled as `none` on
violation.  Note the sigmoid exponent is `4. * (self.value() - ratio)` where
`ratio` was bound to `self.value()` two lines earlier, exactly as in the
source. -/
def ContrastRatio.cost (r : ContrastRatio) : Option ℝ :=
  if 1 ≤ r.value ∧ r.value ≤ 21 then
    let ratio := r.value
    some (if ratio < r.need.minimum_ratio then 100
          else 100 / (1 + Real.exp (4 * (r.value - ratio))))
  else none

/-- From src/main.rs: the free function `contrast_cost` (the older snapshot of
the contrast cost).  The range check is `assert!(1. <= contrast && contrast <= 8.)`,
modelled as `none` on violation. -/
def contrast_cost (contrast : ℝ) (need : ContrastNeed) : Option ℝ :=
  if 1 ≤ contrast ∧ contrast ≤ 8 then
    let cost := fun (min_ratio : ℝ) =>
      if contrast < min_ratio then (100 : ℝ)
      else 100 / (1 + Real.exp (4 * (contrast - min_ratio)))
    some (match need with
          | .Background => cost 3
          | .Text => cost 4.5)
  else none

/-- From src/math.rs and src/main.rs: `root_mean_square_distance`. -/
def root_mean_square_distance (x : ℝ) (s : List ℝ) : ℝ :=
  Real.sqrt ((s.map (fun y => (x - y) * (x - y))).sum / s.length)

/-- From src/math.rs and src/main.rs: `root_mean_square`. -/
def root_mean_square (s : List ℝ) : ℝ :=
  Real.sqrt ((s.map (fun y => y * y)).sum / s.length)

/-- From src/math.rs and src/main.rs: `max_minus_min`.  The source asserts
(or panics via `expect`) on an empty slice; the `[]` branch here is junk and
every theorem touching it carries a non-emptiness hypothesis. -/
def max_minus_min : List ℝ → ℝ
  | [] => 0
  | x :: xs => xs.foldl max x - xs.foldl min x

/-- From src/main.rs: `bg_to_fg_distances` (also `pairwise_distances_2` in
src/color.rs): outer loop over backgrounds, inner loop over foregrounds. -/
def bg_to_fg_distances (dist : Color → Color → ℝ) (bg_colors fg_colors : List Color) :
    List ℝ :=
  bg_colors.flatMap (fun b => fg_colors.map (fun f => dist b f))

/-- From src/main.rs: `fg_mutual_distances` (also `pairwise_distances` in
src/color.rs): all pairs i < j in row-major upper-triangle order. -/
def fg_mutual_distances (dist : Color → Color → ℝ) : List Color → List ℝ
  | [] => []
  | c :: cs => cs.map (fun d => dist c d) ++ fg_mutual_distances dist cs

/-- Loop body of `get_closest_color` from src/color.rs and src/main.rs:
scan keeping the first strictly-closer candidate, starting from the
sentinel distance 1e10 and `out = None`. -/
def get_closest_color_go (dist : Color → Color → ℝ) (c : Color) :
    List Color → ℝ → Option Color → Option Color
  | [], _, out => out
  | x :: xs, closest, out =>
    let d := dist c x
    if d < closest then get_closest_color_go dist c xs d (some x)
    else get_closest_color_go dist c xs closest out

/-- From src/color.rs and src/main.rs: `get_closest_color`.  The source
asserts the list is non-empty and unwraps the result; both failure modes
are modelled as `none`. -/
def get_closest_color (dist : Color → Color → ℝ) (c : Color) (cs : List Color) :
    Option Color :=
  get_closest_color_go dist c cs 1e10 none

namespace CostRs

/-- From src/cost.rs: `struct Weights`. -/
structure Weights where
  (contrast_weight distance_weight range_weight target_weight : ℝ)
  (protanopia_weight deuteranopia_weight tritanopia_weight : ℝ)
  (distance_bg_bg_weight distance_bg_fg_weight distance_fg_fg_weight : ℝ)
  (target_bg_weight target_fg_weight : ℝ)
  (contrast_bg_bg_weight contrast_bg_fg_weight : ℝ)

/-- From src/cost.rs: `struct TotalCost`, the seven-field cost record. -/
structure TotalCost where
  (contrast_cost distance_cost range_cost target_cost : ℝ)
  (protanopia_cost deuteranopia_cost tritanopia_cost : ℝ)

/-- From src/cost.rs: `TotalCost::total`. -/
def TotalCost.total (tc : TotalCost) (w : Weights) : ℝ :=
  w.contrast_weight * tc.contrast_cost
    + w.distance_weight * tc.distance_cost
    + w.range_weight * tc.range_cost
    + w.target_weight * tc.target_cost
    + w.protanopia_weight * tc.protanopia_cost
    + w.deuteranopia_weight * tc.deuteranopia_cost
    + w.tritanopia_weight * tc.tritanopia_cost

/-- Modelled from the spec: "a single weighted sum of the seven TotalCost
fields", written as a literal sum over the seven weight-field pairs, for
comparison with the source's `TotalCost::total`. -/
def weighted_sum_of_seven (w : Weights) (tc : TotalCost) : ℝ :=
  ([(w.contrast_weight, tc.contrast_cost),
    (w.distance_weight, tc.distance_cost),
    (w.range_weight, tc.range_cost),
    (w.target_weight, tc.target_cost),
    (w.protanopia_weight, tc.protanopia_cost),
    (w.deuteranopia_weight, tc.deuteranopia_cost),
    (w.tritanopia_weight, tc.tritanopia_cost)].map (fun p => p.1 * p.2)).sum

end CostRs

/-- From src/main.rs: `struct BackgroundColors` (six semantic slots). -/
structure BackgroundColors where
  (main range_selection line_selection git_added git_line_selection git_deleted : Color)

/-- From src/main.rs: `BackgroundColors::into_array` (COUNT = 2; the other
four slots are commented out in the source). -/
def BackgroundColors.into_array (b : BackgroundColors) : List Color :=
  [b.main, b.line_selection]

/-- From src/main.rs: `BackgroundColors::MODIFIABLE_COUNT`. -/
def MODIFIABLE_COUNT : ℕ := 1

/-- From src/main.rs: `BackgroundColors::updateable_array` (only
`line_selection` is modifiable). -/
def BackgroundColors.updateable_array (b : BackgroundColors) : List Color :=
  [b.line_selection]

/-- From src/main.rs: `BackgroundColors::update`. -/
def BackgroundColors.update (b : BackgroundColors) (new : List Color) :
    BackgroundColors :=
  { b with line_selection := new.headD b.line_selection }

/-- From src/main.rs: `struct TotalCost`, the six-field cost record that
`State::total_cost` actually produces (note: no contrast field). -/
structure TotalCost where
  (distance_cost range_cost target_cost : ℝ)
  (protanopia_cost deuteranopia_cost tritanopia_cost : ℝ)

/-- From src/main.rs: `TotalCost::DISTANCE_WEIGHT`. -/
def DISTANCE_WEIGHT : ℝ := 1

/-- From src/main.rs: `TotalCost::RANGE_WEIGHT`. -/
def RANGE_WEIGHT : ℝ := 0.5

/-- From src/main.rs: `TotalCost::TARGET_WEIGHT`. -/
def TARGET_WEIGHT : ℝ := 1

/-- From src/main.rs: `TotalCost::PROTANOPIA_WEIGHT`. -/
def PROTANOPIA_WEIGHT : ℝ := 0.33

/-- From src/main.rs: `TotalCost::DEUTERANOPIA_WEIGHT`. -/
def DEUTERANOPIA_WEIGHT : ℝ := 0.33

/-- From src/main.rs: `TotalCost::TRITANOPIA_WEIGHT`. -/
def TRITANOPIA_WEIGHT : ℝ := 0.33

/-- From src/main.rs: `TotalCost::total` (fixed weights, six terms). -/
def TotalCost.total (tc : TotalCost) : ℝ :=
  DISTANCE_WEIGHT * tc.distance_cost
    + RANGE_WEIGHT * tc.range_cost
    + TARGET_WEIGHT * tc.target_cost
    + PROTANOPIA_WEIGHT * tc.protanopia_cost
    + DEUTERANOPIA_WEIGHT * tc.deuteranopia_cost
    + TRITANOPIA_WEIGHT * tc.tritanopia_cost

/-- From src/main.rs: `struct State`. -/
structure State where
  bg_colors : BackgroundColors
  bg_color_array : List Color
  fg_colors : List Color
  target_bg_colors : List Color
  target_fg_colors : List Color

/-- From src/main.rs: `State::new`. -/
def State.new (bg_colors : BackgroundColors) (target_fg_colors : List Color) : State :=
  { bg_colors := bg_colors
    bg_color_array := bg_colors.updateable_array
    fg_colors := target_fg_colors
    target_bg_colors := bg_colors.updateable_array
    target_fg_colors := target_fg_colors }

/-- From src/main.rs: `State::DISTANCE_BG_WEIGHT`. -/
def DISTANCE_BG_WEIGHT : ℝ := 0.2

/-- From src/main.rs: `State::DISTANCE_FG_WEIGHT`. -/
def DISTANCE_FG_WEIGHT : ℝ := 1 - DISTANCE_BG_WEIGHT

/-- From src/main.rs: `State::TARGET_BG_WEIGHT`. -/
def TARGET_BG_WEIGHT : ℝ := 0.1

/-- From src/main.rs: `State::TARGET_FG_WEIGHT`. -/
def TARGET_FG_WEIGHT : ℝ := 1 - TARGET_BG_WEIGHT

/-- From src/main.rs: `State::distance_cost`.  Returns the cost together
with the `fg_to_fg` scratch buffer the call leaves behind, which
`State::total_cost` reads for the range cost (the `Cost::new` 0..=100
assertion is elided; no claim depends on it). -/
def State.distance_cost_buf (dist : Color → Color → ℝ) (s : State) (v : Vision) :
    ℝ × List ℝ :=
  let bg_colors := s.bg_colors.into_array.map (fun c => brettel_function c v)
  let fg_colors := s.fg_colors.map (fun c => brettel_function c v)
  let fg_to_fg := fg_mutual_distances dist fg_colors
  let fg_score := root_mean_square_distance 100 fg_to_fg
  let bg_to_fg := bg_to_fg_distances dist bg_colors fg_colors
  let bg_score := root_mean_square_distance 100 bg_to_fg
  (bg_score * DISTANCE_BG_WEIGHT + fg_score * DISTANCE_FG_WEIGHT, fg_to_fg)

/-- From src/main.rs: `State::target_cost`.  The source unwraps
`get_closest_color` (panics on an empty target list); the `getD` default is
junk for that unreachable-by-assertion path. -/
def State.target_cost (dist : Color → Color → ℝ) (s : State) : ℝ :=
  let target_fg_deltas := s.fg_colors.map (fun current =>
    dist current ((get_closest_color dist current s.target_fg_colors).getD current))
  let target_fg_score := root_mean_square target_fg_deltas
  let target_bg_deltas := s.bg_color_array.map (fun current =>
    dist current ((get_closest_color dist current s.target_bg_colors).getD current))
  let target_bg_score := root_mean_square target_bg_deltas
  target_bg_score * TARGET_BG_WEIGHT + target_fg_score * TARGET_FG_WEIGHT

/-- From src/main.rs: `State::total_cost`.  Field initializers are evaluated
in textual order, so the range cost reads the `fg_to_fg` buffer filled by the
Default-vision distance pass, before the dichromacy passes overwrite it. -/
def State.total_cost (dist : Color → Color → ℝ) (s : State) : TotalCost :=
  let dflt := s.distance_cost_buf dist Vision.Default
  { distance_cost := dflt.1
    range_cost := max_minus_min dflt.2
    target_cost := s.target_cost dist
    protanopia_cost := (s.distance_cost_buf dist Vision.Protanopia).1
    deuteranopia_cost := (s.distance_cost_buf dist Vision.Deuteranopia).1
    tritanopia_cost := (s.distance_cost_buf dist Vision.Tritanopia).1 }

/-- The list of cost terms the six-field record produced by
`State::total_cost` consists of, in declaration order. -/
def State.total_cost_terms (dist : Color → Color → ℝ) (s : State) : List ℝ :=
  let tc := s.total_cost dist
  [tc.distance_cost, tc.range_cost, tc.target_cost,
   tc.protanopia_cost, tc.deuteranopia_cost, tc.tritanopia_cost]

/-- The index space the optimizer iterates:
`self.fg_colors.len() + BackgroundColors::MODIFIABLE_COUNT` in src/main.rs. -/
def State.slot_count (s : State) : ℕ := s.fg_colors.length + MODIFIABLE_COUNT

/-- From src/main.rs: `State::sync_bg_slot`. -/
def State.sync_bg_slot (s : State) (i : ℕ) : State :=
  if i < s.fg_colors.length then s
  else
    let j := i - s.fg_colors.length
    let a := (s.bg_colors.updateable_array).set j (s.bg_color_array.getD j default)
    { s with bg_colors := s.bg_colors.update a }

/-- Read half of `State::color_slot` from src/main.rs (the Rust function
returns a mutable reference; reading and writing are modelled separately). -/
def State.get_slot (s : State) (i : ℕ) : Color :=
  if i < s.fg_colors.length then s.fg_colors.getD i default
  else s.bg_color_array.getD (i - s.fg_colors.length) default

/-- Write half of `State::color_slot` from src/main.rs. -/
def State.set_slot (s : State) (i : ℕ) (c : Color) : State :=
  if i < s.fg_colors.length then { s with fg_colors := s.fg_colors.set i c }
  else { s with bg_color_array := s.bg_color_array.set (i - s.fg_colors.length) c }

/-- The dual-view invariant of src/main.rs: the flat modifiable-background
array and the semantic slot structure agree. -/
def views_agree (s : State) : Prop :=
  s.bg_colors.updateable_array = s.bg_color_array

/-- From src/main.rs: `State::INITIAL_TEMPERATURE` (temperatures are kept in
exact rational arithmetic; 1000, 0.99 and 0.0001 are the source constants). -/
def INITIAL_TEMPERATURE : ℚ := 1000

/-- From src/main.rs: `State::COOLING_RATE`. -/
def COOLING_RATE : ℚ := 99 / 100

/-- From src/main.rs: `State::CUTOFF`. -/
def CUTOFF : ℚ := 1 / 10000

/-- From src/main.rs, `State::optimize` step 5:
`let acceptance_probability = (-delta / temperature).exp()`. -/
def acceptance_probability (delta : ℝ) (temperature : ℚ) : ℝ :=
  Real.exp (-delta / (temperature : ℝ))

/-- From src/main.rs, `State::optimize` step 6:
`let accept = rng.gen_range(0. ..=1.) < acceptance_probability` — the draw
comes from the inclusive range 0.0..=1.0 and is passed in explicitly. -/
def accept_decision (draw delta : ℝ) (temperature : ℚ) : Bool :=
  if draw < acceptance_probability delta temperature then true else false

/-- Observation record for one loop iteration of `State::optimize`:
the state on which `total_cost` is evaluated, the running `old_cost` total
before the step, the freshly computed total, and the acceptance decision. -/
structure StepObs where
  eval_state : State
  old_total_before : ℝ
  new_total : ℝ
  accepted : Bool

/-- One index step of the inner loop of `State::optimize` in src/main.rs:
perturb slot i, sync, re-score the whole palette, Metropolis-accept or
restore-and-sync.  `rnd` carries the step's three RNG draws (channel,
offset, acceptance draw) in the order the source consumes them. -/
def anneal_step (dist : Color → Color → ℝ) (rnd : Fin 3 × ℝ × ℝ) (temperature : ℚ)
    (sc : State × TotalCost) (i : ℕ) : (State × TotalCost) × StepObs :=
  let old_color := sc.1.get_slot i
  let perturbed := (sc.1.set_slot i (random_nearby_color old_color rnd.1 rnd.2.1)).sync_bg_slot i
  let new_cost := perturbed.total_cost dist
  let delta := new_cost.total - sc.2.total
  let acc := accept_decision rnd.2.2 delta temperature
  let obs : StepObs := ⟨perturbed, sc.2.total, new_cost.total, acc⟩
  if acc then ((perturbed, new_cost), obs)
  else (((perturbed.set_slot i old_color).sync_bg_slot i, sc.2), obs)

/-- Result of one sweep (or a suffix of one): final state/cost pair, the
observations in order, and the advanced RNG counter. -/
structure SweepOut where
  sc : State × TotalCost
  trace : List StepObs
  ctr : ℕ

/-- The inner `for i in 0..slot_count` loop of `State::optimize`:
`count` indices remaining, starting at index `i`, consuming one RNG record
per step. -/
def sweep_go (dist : Color → Color → ℝ) (rng : ℕ → Fin 3 × ℝ × ℝ) (temperature : ℚ) :
    ℕ → ℕ → ℕ → State × TotalCost → SweepOut
  | 0, _, ctr, sc => ⟨sc, [], ctr⟩
  | count + 1, i, ctr, sc =>
    let r := anneal_step dist (rng ctr) temperature sc i
    let rest := sweep_go dist rng temperature count (i + 1) (ctr + 1) r.1
    ⟨rest.sc, r.2 :: rest.trace, rest.ctr⟩

/-- Result of the outer cooling loop: final state/cost, full observation
trace, the sweep count (`n_iterations` in the source), the advanced RNG
counter, and the final temperature. -/
structure LoopOut where
  sc : State × TotalCost
  trace : List StepObs
  iters : ℕ
  ctr : ℕ
  temperature : ℚ

/-- The `while temperature > CUTOFF` loop of `State::optimize`, fuelled.
With fuel at least 1604 the fuel never runs out (see the cooling lemmas). -/
def anneal_loop (dist : Color → Color → ℝ) (rng : ℕ → Fin 3 × ℝ × ℝ) :
    ℕ → ℚ → ℕ → State × TotalCost → LoopOut
  | 0, t, ctr, sc => ⟨sc, [], 0, ctr, t⟩
  | fuel + 1, t, ctr, sc =>
    if CUTOFF < t then
      let sw := sweep_go dist rng t sc.1.slot_count 0 ctr sc
      let rest := anneal_loop dist rng fuel (t * COOLING_RATE) sw.ctr sw.sc
      ⟨rest.sc, sw.trace ++ rest.trace, rest.iters + 1, rest.ctr, rest.temperature⟩
    else ⟨sc, [], 0, ctr, t⟩

/-- Fuel used by `State.optimize`; any value at least 1604 gives the same
run, since the cooling schedule exhausts after 1604 sweeps. -/
def FUEL : ℕ := 2000

/-- From src/main.rs: `State::optimize`, with the CIEDE2000 oracle and the
RNG stream as explicit parameters: the cooling loop run from the initial
temperature on the freshly scored palette.  Of the source's `Report`, the
result carries the trace (from which the recorded cost sequence is read),
`iters` (the source's `n_iterations` sweep count), the final palette
`sc.1` and the final temperature; the pre-run cost total is
`State.optimize_start_total`. -/
def State.optimize (dist : Color → Color → ℝ) (rng : ℕ → Fin 3 × ℝ × ℝ) (s : State) :
    LoopOut :=
  anneal_loop dist rng FUEL INITIAL_TEMPERATURE 0 (s, s.total_cost dist)

/-- The `start_cost.total()` of a run: the total cost of the palette as
scored before the cooling loop starts. -/
def State.optimize_start_total (dist : Color → Color → ℝ) (s : State) : ℝ :=
  (s.total_cost dist).total

/-- The sequence of recorded `old_cost.total()` values across a run: the
initial total followed by the totals recorded at each accepted step. -/
def recorded_totals (dist : Color → Color → ℝ) (rng : ℕ → Fin 3 × ℝ × ℝ) (s : State) :
    List ℝ :=
  State.optimize_start_total dist s
    :: (((State.optimize dist rng s).trace.filter (fun o => o.accepted)).map
        (fun o => o.new_total))

/-- The temperature recursion of the cooling loop on its own: how many
sweeps run before the temperature passes the cutoff. -/
def cool_count : ℕ → ℚ → ℕ
  | 0, _ => 0
  | fuel + 1, t => if CUTOFF < t then cool_count fuel (t * COOLING_RATE) + 1 else 0

/-- The temperature left after the cooling loop exhausts. -/
def cool_temp : ℕ → ℚ → ℚ
  | 0, t => t
  | fuel + 1, t => if CUTOFF < t then cool_temp fuel (t * COOLING_RATE) else t

/-- Well-formedness of an observation trace relative to a running recorded
total: each step observes as `old_total_before` the current recorded total,
which is replaced by `new_total` exactly when the step is accepted. -/
def TraceWF : ℝ → List StepObs → Prop
  | _, [] => True
  | cur, o :: rest =>
    o.old_total_before = cur ∧ TraceWF (if o.accepted then o.new_total else cur) rest

/-- The recorded total left after processing a trace. -/
def end_total (cur : ℝ) (l : List StepObs) : ℝ :=
  l.foldl (fun c o => if o.accepted then o.new_total else c) cur

/-- Concrete colors for the counterexample runs. -/
def ce_black : Color := (0, 0, 0)

/-- Pure white, fixed exactly by the protan and deutan projections. -/
def ce_white : Color := (1, 1, 1)

/-- The color produced by perturbing black on channel 0 with offset +0.05. -/
def ce_p : Color := (1 / 20, 0, 0)

/-- A concrete stand-in for the abstract CIEDE2000 oracle: distance 0 for
identical colors and 100 for distinct ones (symmetric, zero on the
diagonal). -/
def dist_ce (a b : Color) : ℝ := if a = b then 0 else 100

/-- A background-slot set whose six semantic slots are all black. -/
def bg_ce : BackgroundColors := ⟨ce_black, ce_black, ce_black, ce_black, ce_black, ce_black⟩

/-- Counterexample start state: two foreground colors (black, white),
targets equal to the foregrounds, all backgrounds black. -/
def s0_ce : State := State.new bg_ce [ce_black, ce_white]

/-- Counterexample RNG stream: the first step perturbs channel 0 by +0.05
and draws 0.0 for acceptance; later steps are irrelevant to the proof. -/
def rng_ce : ℕ → Fin 3 × ℝ × ℝ := fun n => if n = 0 then (0, 1 / 20, 0) else (0, 0, 1)

/-- The everywhere-zero distance oracle (used only to instantiate
universally quantified theorems at a concrete input). -/
def dist_zero (_ _ : Color) : ℝ := 0

/-- The state after the counterexample run's first perturbation: foreground
slot 0 moved from black to (0.05, 0, 0). -/
def s1_ce : State :=
  { bg_colors := bg_ce
    bg_color_array := [ce_black]
    fg_colors := [ce_p, ce_white]
    target_bg_colors := [ce_black]
    target_fg_colors := [ce_black, ce_white] }

/-!
## Theorems
-/

theorem srgb_to_linear_zero : srgb_to_linear 0 = 0 := by
  rw [srgb_to_linear, if_pos (by norm_num)]
  norm_num

theorem srgb_to_linear_one : srgb_to_linear 1 = 1 := by
  rw [srgb_to_linear, if_neg (by norm_num)]
  rw [show ((1 : ℝ) + 0.055) / 1.055 = 1 by norm_num, Real.one_rpow]

theorem linear_to_srgb_zero : linear_to_srgb 0 = 0 := by
  rw [linear_to_srgb, if_pos (by norm_num)]
  norm_num

theorem linear_to_srgb_one : linear_to_srgb 1 = 1 := by
  rw [linear_to_srgb, if_neg (by norm_num)]
  rw [Real.one_rpow]
  norm_num

theorem linear_to_srgb_pos {x : ℝ} (h : 0 < x) : 0 < linear_to_srgb x := by
  rw [linear_to_srgb]
  split_ifs with hx
  · nlinarith
  · push_neg at hx
    have h1 : ((11 : ℝ) / 211) ^ (2.4 : ℝ) ≤ ((11 : ℝ) / 211) ^ ((2 : ℕ) : ℝ) :=
      Real.rpow_le_rpow_of_exponent_ge (by norm_num) (by norm_num) (by norm_num)
    rw [Real.rpow_natCast] at h1
    have h2 : ((11 : ℝ) / 211) ^ (2.4 : ℝ) < x := by nlinarith
    have h3 : (((11 : ℝ) / 211) ^ (2.4 : ℝ)) ^ ((1 : ℝ) / 2.4) < x ^ ((1 : ℝ) / 2.4) :=
      Real.rpow_lt_rpow (by positivity) h2 (by norm_num)
    rw [← Real.rpow_mul (by norm_num), show (2.4 : ℝ) * ((1 : ℝ) / 2.4) = 1 by norm_num,
      Real.rpow_one] at h3
    nlinarith

theorem linear_to_srgb_lt_one {x : ℝ} (h : x < 1) : linear_to_srgb x < 1 := by
  rw [linear_to_srgb]
  split_ifs with hx
  · nlinarith
  · push_neg at hx
    have h1 : x ^ ((1 : ℝ) / 2.4) < 1 := Real.rpow_lt_one (by nlinarith) h (by norm_num)
    nlinarith

theorem srgb_to_linear_p_pos : 0 < srgb_to_linear (1 / 20) := by
  rw [srgb_to_linear, if_neg (by norm_num)]
  exact Real.rpow_pos_of_pos (by norm_num) _

theorem srgb_to_linear_p_small : srgb_to_linear (1 / 20) < 1 / 100 := by
  rw [srgb_to_linear, if_neg (by norm_num)]
  have h0 : ((1 : ℝ) / 20 + 0.055) / 1.055 = 21 / 211 := by norm_num
  rw [h0]
  have h1 : ((21 : ℝ) / 211) ^ (2.4 : ℝ) ≤ ((21 : ℝ) / 211) ^ ((2 : ℕ) : ℝ) :=
    Real.rpow_le_rpow_of_exponent_ge (by norm_num) (by norm_num) (by norm_num)
  rw [Real.rpow_natCast] at h1
  nlinarith

/-- C8 (amended): `simulate_vision` for Achromatopsia (severity 1.0) and
Achromatomaly (severity 0.6) converts the input to the luminance
0.299 R + 0.587 G + 0.114 B passed through `f32::round` — i.e. rounded to
the nearest integer, which for in-range channels is 0 or 1 — and linearly
blends each channel toward that value by the severity; in particular
Achromatopsia produces equal R, G, B channels, all equal to the rounded
luminance. -/
theorem C8_monochrome_rounds_to_integer (c : Color) :
    ((brettel_function c Vision.Achromatopsia).1
        = fround (c.1 * 0.299 + c.2.1 * 0.587 + c.2.2 * 0.114)
      ∧ (brettel_function c Vision.Achromatopsia).2.1
        = fround (c.1 * 0.299 + c.2.1 * 0.587 + c.2.2 * 0.114)
      ∧ (brettel_function c Vision.Achromatopsia).2.2
        = fround (c.1 * 0.299 + c.2.1 * 0.587 + c.2.2 * 0.114))
    ∧ (brettel_function c Vision.Achromatomaly
        = monochrome_with_severity c 0.6
      ∧ (brettel_function c Vision.Achromatomaly).1
          - fround (c.1 * 0.299 + c.2.1 * 0.587 + c.2.2 * 0.114)
        = (1 - 0.6) * (c.1 - fround (c.1 * 0.299 + c.2.1 * 0.587 + c.2.2 * 0.114))) := by
  refine ⟨⟨?_, ?_, ?_⟩, rfl, ?_⟩ <;>
    simp only [brettel_function, monochrome_with_severity] <;> ring

/-- C8 counterexample: on the mid gray (0.6, 0.6, 0.6) the luminance is
exactly 0.6, which the source rounds to 1 (`f32::round`), so Achromatopsia
yields pure white, whereas the claim's reading — rounding to the nearest
representable channel value, the identity for real-valued channels — yields
the gray itself. -/
theorem C8_round_to_integer_cex :
    brettel_function ((3 / 5 : ℝ), 3 / 5, 3 / 5) Vision.Achromatopsia = ((1 : ℝ), 1, 1)
    ∧ monochrome_with_severity_spec ((3 / 5 : ℝ), 3 / 5, 3 / 5) 1 = ((3 / 5 : ℝ), 3 / 5, 3 / 5)
    ∧ brettel_function ((3 / 5 : ℝ), 3 / 5, 3 / 5) Vision.Achromatopsia
        ≠ monochrome_with_severity_spec ((3 / 5 : ℝ), 3 / 5, 3 / 5) 1 := by
  have hlum : ((3 : ℝ) / 5) * 0.299 + (3 / 5 : ℝ) * 0.587 + (3 / 5 : ℝ) * 0.114 = 3 / 5 := by
    norm_num
  have hfr : fround (3 / 5 : ℝ) = 1 := by
    rw [fround, if_pos (by norm_num)]
    rw [show ((3 : ℝ) / 5 + 1 / 2) = 11 / 10 by norm_num]
    rw [show ⌊(11 / 10 : ℝ)⌋ = 1 from Int.floor_eq_iff.mpr (by norm_num)]
    norm_num
  refine ⟨?_, ?_, ?_⟩
  · simp only [brettel_function, monochrome_with_severity, hlum, hfr]
    norm_num
  · simp only [monochrome_with_severity_spec, hlum]
    norm_num
  · simp only [brettel_function, monochrome_with_severity, monochrome_with_severity_spec,
      hlum, hfr]
    intro h
    rw [Prod.ext_iff] at h
    norm_num at h

/-- C10: the dichromacy simulation at severity 1.0 can leave the unit cube:
for pure green under Tritanopia the projected blue channel is 1.13825 in
linear space, the conversion back to sRGB applies no clamping, and the
resulting blue channel exceeds 1; the tritan projection matrix 2 has a
negative entry and an entry above 1. -/
theorem C10_tritanopia_out_of_range :
    1 < (brettel_function ((0 : ℝ), 1, 0) Vision.Tritanopia).2.2
    ∧ (0 : ℝ) ∈ Set.Icc (0 : ℝ) 1 ∧ (1 : ℝ) ∈ Set.Icc (0 : ℝ) 1
    ∧ (∃ params, brettel_params Vision.Tritanopia = some params
        ∧ params.rgb_cvd_from_rgb_2.e2 < 0 ∧ 1 < params.rgb_cvd_from_rgb_2.e7) := by
  refine ⟨?_, by norm_num, by norm_num, ?_⟩
  · have hb : (brettel_function ((0 : ℝ), 1, 0) Vision.Tritanopia).2.2
        = linear_to_srgb (1.13825 * 1 + 1 * (1 - 1)) := by
      simp only [brettel_function, brettel, brettel_params, mat_vec,
        srgb_to_linear_zero, srgb_to_linear_one]
      rw [if_neg (by norm_num)]
      norm_num
    rw [hb, show (1.13825 : ℝ) * 1 + 1 * (1 - 1) = 1.13825 by norm_num]
    rw [linear_to_srgb, if_neg (by norm_num)]
    have h1 : 1 < (1.13825 : ℝ) ^ ((1 : ℝ) / 2.4) := by
      rw [Real.one_lt_rpow_iff_of_pos (by norm_num)]
      left
      constructor <;> norm_num
    nlinarith
  · exact ⟨_, rfl, by norm_num, by norm_num⟩

/-- C1 (code evaluated at the failing input): in `ContrastRatio::cost` the
sigmoid exponent is the self-difference `4. * (self.value() - ratio)` with
`ratio` bound to `self.value()`, so every in-range ratio at or above the
minimum gets the constant cost 50 — ratios 4 and 5 under the Background
need (minimum 3.0) both cost exactly 50 — instead of the strictly
decreasing logistic decay the claim (and the source's own "Sigmoid pushing
towards high contrast" comment) describes; below the floor the cost is 100
as claimed.  The sibling `contrast_cost` in src/main.rs carries the
intended formula with the minimum ratio in the exponent and is strictly
decreasing above the floor. -/
theorem C1_contrast_cost_constant_above_floor :
    ContrastRatio.cost ⟨4, ContrastNeed.Background⟩ = some 50
    ∧ ContrastRatio.cost ⟨5, ContrastNeed.Background⟩ = some 50
    ∧ ContrastRatio.cost ⟨2, ContrastNeed.Background⟩ = some 100
    ∧ contrast_cost 4 ContrastNeed.Background = some (100 / (1 + Real.exp 4))
    ∧ contrast_cost 5 ContrastNeed.Background = some (100 / (1 + Real.exp 8))
    ∧ 100 / (1 + Real.exp 8) < 100 / (1 + Real.exp 4) := by
  have hexp : Real.exp 4 < Real.exp 8 := Real.exp_lt_exp.mpr (by norm_num)
  have h4 : (0 : ℝ) < 1 + Real.exp 4 := by positivity
  refine ⟨?_, ?_, ?_, ?_, ?_, ?_⟩
  · rw [ContrastRatio.cost, if_pos (by norm_num)]
    simp only [ContrastNeed.minimum_ratio]
    rw [if_neg (by norm_num)]
    norm_num [Real.exp_zero]
  · rw [ContrastRatio.cost, if_pos (by norm_num)]
    simp only [ContrastNeed.minimum_ratio]
    rw [if_neg (by norm_num)]
    norm_num [Real.exp_zero]
  · rw [ContrastRatio.cost, if_pos (by norm_num)]
    simp only [ContrastNeed.minimum_ratio]
    rw [if_pos (by norm_num)]
  · rw [contrast_cost, if_pos (by norm_num)]
    simp only
    rw [if_neg (by norm_num)]
    norm_num
  · rw [contrast_cost, if_pos (by norm_num)]
    simp only
    rw [if_neg (by norm_num)]
    norm_num
  · exact div_lt_div_of_pos_left (by norm_num) h4 (by linarith)

theorem get_closest_color_go_correct (dist : Color → Color → ℝ) (c : Color) :
    ∀ (cs : List Color) (best : ℝ) (out : Option Color),
      (get_closest_color_go dist c cs best out = out ∧ ∀ x ∈ cs, ¬ dist c x < best)
      ∨ (∃ i : Fin cs.length,
          get_closest_color_go dist c cs best out = some (cs.get i)
          ∧ dist c (cs.get i) < best
          ∧ (∀ j : Fin cs.length, ¬ dist c (cs.get j) < dist c (cs.get i))
          ∧ (∀ j : Fin cs.length, j.val < i.val → dist c (cs.get i) < dist c (cs.get j))) := by
  intro cs
  induction cs with
  | nil => intro best out; left; exact ⟨rfl, by simp⟩
  | cons x xs ih =>
    intro best out
    have hgo : get_closest_color_go dist c (x :: xs) best out
        = if dist c x < best then get_closest_color_go dist c xs (dist c x) (some x)
          else get_closest_color_go dist c xs best out := rfl
    by_cases hd : dist c x < best
    · rw [hgo, if_pos hd]
      rcases ih (dist c x) (some x) with ⟨heq, hall⟩ | ⟨i, heq, hlt, hmin, hfirst⟩
      · right
        refine ⟨⟨0, Nat.succ_pos _⟩, by rw [heq]; rfl, hd, ?_, ?_⟩
        · rintro ⟨jv, hj⟩
          cases jv with
          | zero => exact lt_irrefl _
          | succ k =>
            exact hall (xs.get ⟨k, Nat.lt_of_succ_lt_succ hj⟩)
              (List.get_mem xs k (Nat.lt_of_succ_lt_succ hj))
        · rintro ⟨jv, hj⟩ hjlt
          exact absurd hjlt (Nat.not_lt_zero _)
      · right
        refine ⟨⟨i.val + 1, Nat.succ_lt_succ i.isLt⟩, ?_, lt_trans hlt hd, ?_, ?_⟩
        · rw [heq]; rfl
        · rintro ⟨jv, hj⟩
          cases jv with
          | zero => exact fun h => absurd (lt_trans hlt h) (lt_irrefl _)
          | succ k => exact hmin ⟨k, Nat.lt_of_succ_lt_succ hj⟩
        · rintro ⟨jv, hj⟩ hjlt
          cases jv with
          | zero => exact hlt
          | succ k => exact hfirst ⟨k, Nat.lt_of_succ_lt_succ hj⟩ (Nat.lt_of_succ_lt_succ hjlt)
    · rw [hgo, if_neg hd]
      rcases ih best out with ⟨heq, hall⟩ | ⟨i, heq, hlt, hmin, hfirst⟩
      · left
        refine ⟨heq, ?_⟩
        intro y hy
        rcases List.mem_cons.mp hy with h | h
        · rw [h]; exact hd
        · exact hall y h
      · right
        have hbest : best ≤ dist c x := not_lt.mp hd
        refine ⟨⟨i.val + 1, Nat.succ_lt_succ i.isLt⟩, ?_, hlt, ?_, ?_⟩
        · rw [heq]; rfl
        · rintro ⟨jv, hj⟩
          cases jv with
          | zero => exact fun h => absurd (lt_trans hlt (lt_of_le_of_lt hbest h)) (lt_irrefl _)
          | succ k => exact hmin ⟨k, Nat.lt_of_succ_lt_succ hj⟩
        · rintro ⟨jv, hj⟩ hjlt
          cases jv with
          | zero => exact lt_of_lt_of_le hlt hbest
          | succ k => exact hfirst ⟨k, Nat.lt_of_succ_lt_succ hj⟩ (Nat.lt_of_succ_lt_succ hjlt)

/-- C9: `get_closest_color` fails (returns none, the model of the
assertion/unwrap panic) exactly when the candidate list is empty, provided
every candidate distance is below the 1e10 scan sentinel (CIEDE2000 values
are bounded far below it); on a non-empty list it returns the candidate
minimizing the distance, ties broken by first-encountered order, and on
the singleton list containing the query itself it returns that color
exactly. -/
theorem C9_get_closest_color (dist : Color → Color → ℝ) (c : Color) (cs : List Color)
    (hb : ∀ x ∈ cs, dist c x < 1e10) :
    (get_closest_color dist c cs = none ↔ cs = [])
    ∧ (∀ y, get_closest_color dist c cs = some y →
        ∃ i : Fin cs.length, cs.get i = y
          ∧ (∀ j : Fin cs.length, dist c y ≤ dist c (cs.get j))
          ∧ (∀ j : Fin cs.length, j.val < i.val → dist c y < dist c (cs.get j)))
    ∧ (cs = [c] → get_closest_color dist c cs = some c) := by
  rcases get_closest_color_go_correct dist c cs 1e10 none with
    ⟨heq, hall⟩ | ⟨i, heq, _hlt, hmin, hfirst⟩
  · have hnil : cs = [] := by
      cases cs with
      | nil => rfl
      | cons x xs => exact absurd (hb x (List.mem_cons_self x xs)) (hall x (List.mem_cons_self x xs))
    subst hnil
    refine ⟨by simp [get_closest_color, heq], ?_, ?_⟩
    · intro y hy
      rw [get_closest_color] at hy
      rw [heq] at hy
      exact absurd hy (by simp)
    · intro h
      exact absurd h (by simp)
  · rw [get_closest_color]
    refine ⟨?_, ?_, ?_⟩
    · constructor
      · intro h
        rw [heq] at h
        exact absurd h (by simp)
      · intro h
        subst h
        exact absurd i.isLt (by simp)
    · intro y hy
      rw [heq] at hy
      have hyi : cs.get i = y := (Option.some.injEq _ _).mp hy
      subst hyi
      exact ⟨i, rfl, fun j => not_lt.mp (hmin j), hfirst⟩
    · intro h
      subst h
      rw [heq]
      congr 1
      have hi0 : i = ⟨0, by simp⟩ := by
        rcases i with ⟨iv, hiv⟩
        simp only [List.length_singleton] at hiv
        simp [Nat.lt_one_iff.mp hiv]
      rw [hi0]
      rfl

theorem C9_get_closest_color_witness :
    (∀ x ∈ [ce_black], dist_zero ce_black x < 1e10)
    ∧ ((get_closest_color dist_zero ce_black [ce_black] = none ↔ [ce_black] = ([] : List Color))
      ∧ (∀ y, get_closest_color dist_zero ce_black [ce_black] = some y →
          ∃ i : Fin ([ce_black] : List Color).length, ([ce_black] : List Color).get i = y
            ∧ (∀ j : Fin ([ce_black] : List Color).length,
                dist_zero ce_black y ≤ dist_zero ce_black (([ce_black] : List Color).get j))
            ∧ (∀ j : Fin ([ce_black] : List Color).length, j.val < i.val →
                dist_zero ce_black y < dist_zero ce_black (([ce_black] : List Color).get j)))
      ∧ ([ce_black] = [ce_black] → get_closest_color dist_zero ce_black [ce_black] = some ce_black)) :=
  ⟨by intro x _; rw [dist_zero]; norm_num,
   C9_get_closest_color dist_zero ce_black [ce_black]
     (by intro x _; rw [dist_zero]; norm_num)⟩

theorem triple_array_round_trip (a : Fin 3 → ℝ) (i : Fin 3) :
    triple_to_array (array_to_triple a) i = a i := by
  fin_cases i <;> simp [triple_to_array, array_to_triple]

/-- C7 (amended): `perturb_nearby` adds the offset (a legitimate draw being
any value in the closed interval -0.05..=0.05) to the chosen channel,
clamps the result to the unit interval and leaves the other two channels
unchanged; every output channel lies in 0..1 when the input does, and AT
MOST one channel differs from the input — the perturbed channel itself may
come back unchanged (offset 0, or clamping at a saturated boundary). -/
theorem C7_random_nearby_color (c : Color) (channel : Fin 3) (offset : ℝ)
    (hc : ∀ i : Fin 3, triple_to_array c i ∈ Set.Icc (0 : ℝ) 1)
    (_ho : offset ∈ Set.Icc (-WIGGLE) WIGGLE) :
    (∀ i : Fin 3, triple_to_array (random_nearby_color c channel offset) i ∈ Set.Icc (0 : ℝ) 1)
    ∧ (∀ i : Fin 3, i ≠ channel →
        triple_to_array (random_nearby_color c channel offset) i = triple_to_array c i)
    ∧ triple_to_array (random_nearby_color c channel offset) channel
        = min (max (triple_to_array c channel + offset) 0) 1
    ∧ (∀ i : Fin 3,
        triple_to_array (random_nearby_color c channel offset) i ≠ triple_to_array c i
          → i = channel) := by
  have hval : ∀ i : Fin 3, triple_to_array (random_nearby_color c channel offset) i
      = Function.update (triple_to_array c) channel
          (min (max (triple_to_array c channel + offset) 0) 1) i := by
    intro i
    rw [random_nearby_color]
    exact triple_array_round_trip _ i
  refine ⟨?_, ?_, ?_, ?_⟩
  · intro i
    rw [hval i]
    by_cases hi : i = channel
    · subst hi
      rw [Function.update_same]
      constructor
      · exact le_min (le_max_right _ _) (by norm_num)
      · exact min_le_right _ _
    · rw [Function.update_noteq hi]
      exact hc i
  · intro i hi
    rw [hval i, Function.update_noteq hi]
  · rw [hval channel, Function.update_same]
  · intro i hi
    by_contra hne
    exact hi (by rw [hval i, Function.update_noteq hne])

theorem C7_random_nearby_color_witness :
    (∀ i : Fin 3, triple_to_array ((1 / 2 : ℝ), 1 / 2, 1 / 2) i ∈ Set.Icc (0 : ℝ) 1)
    ∧ ((1 / 20 : ℝ) ∈ Set.Icc (-WIGGLE) WIGGLE)
    ∧ ((∀ i : Fin 3,
          triple_to_array (random_nearby_color ((1 / 2 : ℝ), 1 / 2, 1 / 2) 0 (1 / 20)) i
            ∈ Set.Icc (0 : ℝ) 1)
      ∧ (∀ i : Fin 3, i ≠ 0 →
          triple_to_array (random_nearby_color ((1 / 2 : ℝ), 1 / 2, 1 / 2) 0 (1 / 20)) i
            = triple_to_array ((1 / 2 : ℝ), 1 / 2, 1 / 2) i)
      ∧ triple_to_array (random_nearby_color ((1 / 2 : ℝ), 1 / 2, 1 / 2) 0 (1 / 20)) 0
          = min (max (triple_to_array ((1 / 2 : ℝ), 1 / 2, 1 / 2) 0 + 1 / 20) 0) 1
      ∧ (∀ i : Fin 3,
          triple_to_array (random_nearby_color ((1 / 2 : ℝ), 1 / 2, 1 / 2) 0 (1 / 20)) i
            ≠ triple_to_array ((1 / 2 : ℝ), 1 / 2, 1 / 2) i → i = 0)) :=
  ⟨by intro i; fin_cases i <;> simp [triple_to_array] <;> norm_num,
   by rw [Set.mem_Icc, WIGGLE]; norm_num,
   C7_random_nearby_color ((1 / 2 : ℝ), 1 / 2, 1 / 2) 0 (1 / 20)
     (by intro i; fin_cases i <;> simp [triple_to_array] <;> norm_num)
     (by rw [Set.mem_Icc, WIGGLE]; norm_num)⟩

/-- C7 counterexample: with pure black and the legitimate offset draw
-0.05 on channel 0 the perturbed channel clamps back to 0, so the output
equals the input and NO channel differs — refuting "exactly one channel
differs from the input per call". -/
theorem C7_zero_channels_differ_cex :
    (-(1 / 20) : ℝ) ∈ Set.Icc (-WIGGLE) WIGGLE
    ∧ random_nearby_color ce_black 0 (-(1 / 20)) = ce_black
    ∧ ¬ (∃ i : Fin 3,
          triple_to_array (random_nearby_color ce_black 0 (-(1 / 20))) i
            ≠ triple_to_array ce_black i) := by
  have heq : random_nearby_color ce_black 0 (-(1 / 20)) = ce_black := by
    have h00 : triple_to_array ce_black 0 = 0 := by simp [triple_to_array, ce_black]
    have h01 : triple_to_array ce_black 1 = 0 := by simp [triple_to_array, ce_black]
    have h02 : triple_to_array ce_black 2 = 0 := by simp [triple_to_array, ce_black]
    simp only [random_nearby_color, array_to_triple]
    rw [Function.update_same, Function.update_noteq (by decide), Function.update_noteq (by decide)]
    rw [h00, h01, h02]
    rw [show ((0 : ℝ) + -(1 / 20)) = -(1 / 20) by norm_num]
    rw [max_eq_right (by norm_num : (-(1 / 20) : ℝ) ≤ 0), min_eq_left (by norm_num : (0 : ℝ) ≤ 1)]
    rfl
  refine ⟨by rw [Set.mem_Icc, WIGGLE]; norm_num, heq, ?_⟩
  rintro ⟨i, hi⟩
  exact hi (by rw [heq])

/-- C6 (amended): the acceptance probability is exp(-delta / temperature)
with delta = new total minus old total; the acceptance draw comes from the
INCLUSIVE range 0.0..=1.0 (not the half-open 0..1), and the perturbation is
accepted iff the draw is strictly below the probability.  Consequently a
strictly improving perturbation (delta < 0) is always accepted, and a
non-worsening one (delta <= 0) is accepted for every draw strictly below 1
— but not necessarily at the boundary draw 1. -/
theorem C6_metropolis_acceptance (draw delta : ℝ) (temperature : ℚ)
    (ht : 0 < temperature) :
    (accept_decision draw delta temperature = true
      ↔ draw < Real.exp (-delta / (temperature : ℝ)))
    ∧ (delta < 0 → draw ≤ 1 → accept_decision draw delta temperature = true)
    ∧ (delta ≤ 0 → draw < 1 → accept_decision draw delta temperature = true)
    ∧ (∀ (dist : Color → Color → ℝ) (rnd : Fin 3 × ℝ × ℝ) (sc : State × TotalCost) (i : ℕ),
        (anneal_step dist rnd temperature sc i).2.accepted
          = accept_decision rnd.2.2
              ((anneal_step dist rnd temperature sc i).2.new_total
                - (anneal_step dist rnd temperature sc i).2.old_total_before) temperature) := by
  have htR : (0 : ℝ) < (temperature : ℝ) := by exact_mod_cast ht
  have hiff : accept_decision draw delta temperature = true
      ↔ draw < Real.exp (-delta / (temperature : ℝ)) := by
    rw [accept_decision, acceptance_probability]
    split_ifs with h
    · simp [h]
    · simp [h]
  refine ⟨hiff, ?_, ?_, ?_⟩
  · intro hdelta hdraw
    rw [hiff]
    have : (0 : ℝ) < -delta / (temperature : ℝ) := div_pos (neg_pos.mpr hdelta) htR
    calc draw ≤ 1 := hdraw
      _ < Real.exp (-delta / (temperature : ℝ)) := Real.one_lt_exp_iff.mpr this
  · intro hdelta hdraw
    rw [hiff]
    have h0 : (0 : ℝ) ≤ -delta / (temperature : ℝ) :=
      div_nonneg (neg_nonneg.mpr hdelta) (le_of_lt htR)
    calc draw < 1 := hdraw
      _ ≤ Real.exp (-delta / (temperature : ℝ)) := Real.one_le_exp h0
  · intro dist rnd sc i
    rw [anneal_step]
    split <;> rfl

theorem C6_metropolis_acceptance_witness :
    (0 : ℚ) < 1
    ∧ ((accept_decision (1 / 2) (-1) 1 = true
        ↔ (1 / 2 : ℝ) < Real.exp (-(-1) / ((1 : ℚ) : ℝ)))
      ∧ ((-1 : ℝ) < 0 → (1 / 2 : ℝ) ≤ 1 → accept_decision (1 / 2) (-1) 1 = true)
      ∧ ((-1 : ℝ) ≤ 0 → (1 / 2 : ℝ) < 1 → accept_decision (1 / 2) (-1) 1 = true)
      ∧ (∀ (dist : Color → Color → ℝ) (rnd : Fin 3 × ℝ × ℝ) (sc : State × TotalCost) (i : ℕ),
          (anneal_step dist rnd 1 sc i).2.accepted
            = accept_decision rnd.2.2
                ((anneal_step dist rnd 1 sc i).2.new_total
                  - (anneal_step dist rnd 1 sc i).2.old_total_before) 1)) :=
  ⟨by norm_num, C6_metropolis_acceptance (1 / 2) (-1) 1 (by norm_num)⟩

/-- C6 counterexample: the draw space is the inclusive interval 0..=1; at
the legitimate boundary draw 1 with delta = 0 the acceptance probability is
exp 0 = 1 and the strict test 1 < 1 fails, so the non-worsening perturbation
is REJECTED, refuting "whenever delta <= 0 the perturbation is always
accepted" (and the claim's half-open draw range). -/
theorem C6_boundary_draw_rejected_cex :
    (0 : ℝ) ≤ 0 ∧ accept_decision 1 0 1000 = false := by
  refine ⟨le_refl _, ?_⟩
  rw [accept_decision, acceptance_probability, if_neg]
  rw [neg_zero, zero_div, Real.exp_zero]
  exact lt_irrefl 1

theorem brettel_function_default (c : Color) : brettel_function c Vision.Default = c := rfl

/-- C2 counterexample: `State::total_cost` (src/main.rs), the only
total-cost evaluation on a palette in the repository, produces a SIX-field
cost record — distance, range, target, protanopia, deuteranopia,
tritanopia — and no contrast term at all, refuting "produces all seven
cost terms, including a contrast cost". -/
theorem C2_six_terms_cex :
    (State.total_cost_terms dist_zero s0_ce).length = 6 ∧ (6 : ℕ) ≠ 7 :=
  ⟨rfl, by norm_num⟩

/-- C2 (amended): `Weights.total` of the seven-field TotalCost in
src/cost.rs is a single weighted sum of its seven fields (contrast,
distance, range, target, protanopia, deuteranopia, tritanopia); but
`State::total_cost` in src/main.rs produces only six cost terms and no
contrast cost: the Default-vision distance cost, the range cost — max
minus min of the foreground-foreground distance buffer that the
Default-vision pass filled — the target cost, and one distance cost per
dichromacy variant; its total is the fixed-weight six-term sum
1, 0.5, 1, 0.33, 0.33, 0.33. -/
theorem C2_total_cost_structure :
    (∀ (w : CostRs.Weights) (tc : CostRs.TotalCost),
        CostRs.TotalCost.total tc w = CostRs.weighted_sum_of_seven w tc)
    ∧ (∀ (dist : Color → Color → ℝ) (s : State),
        (s.total_cost dist).distance_cost = (s.distance_cost_buf dist Vision.Default).1
        ∧ (s.total_cost dist).range_cost
            = max_minus_min (fg_mutual_distances dist s.fg_colors)
        ∧ (s.total_cost dist).target_cost = s.target_cost dist
        ∧ (s.total_cost dist).protanopia_cost = (s.distance_cost_buf dist Vision.Protanopia).1
        ∧ (s.total_cost dist).deuteranopia_cost
            = (s.distance_cost_buf dist Vision.Deuteranopia).1
        ∧ (s.total_cost dist).tritanopia_cost = (s.distance_cost_buf dist Vision.Tritanopia).1
        ∧ (State.total_cost_terms dist s).length = 6
        ∧ (s.total_cost dist).total
            = 1 * (s.total_cost dist).distance_cost
              + 0.5 * (s.total_cost dist).range_cost
              + 1 * (s.total_cost dist).target_cost
              + 0.33 * (s.total_cost dist).protanopia_cost
              + 0.33 * (s.total_cost dist).deuteranopia_cost
              + 0.33 * (s.total_cost dist).tritanopia_cost) := by
  constructor
  · intro w tc
    rw [CostRs.TotalCost.total, CostRs.weighted_sum_of_seven]
    simp only [List.map_cons, List.map_nil, List.sum_cons, List.sum_nil]
    ring
  · intro dist s
    have hmap : s.fg_colors.map (fun c => brettel_function c Vision.Default) = s.fg_colors := by
      simp [brettel_function]
    refine ⟨rfl, ?_, rfl, rfl, rfl, rfl, rfl, ?_⟩
    · show max_minus_min (s.distance_cost_buf dist Vision.Default).2
        = max_minus_min (fg_mutual_distances dist s.fg_colors)
      rw [State.distance_cost_buf]
      simp only [hmap]
    · rw [TotalCost.total, DISTANCE_WEIGHT, RANGE_WEIGHT, TARGET_WEIGHT,
        PROTANOPIA_WEIGHT, DEUTERANOPIA_WEIGHT, TRITANOPIA_WEIGHT]

theorem cool_count_char :
    ∀ (fuel k : ℕ) (t : ℚ), k ≤ fuel →
      (∀ j, j < k → CUTOFF < t * COOLING_RATE ^ j) →
      t * COOLING_RATE ^ k ≤ CUTOFF →
      cool_count fuel t = k := by
  intro fuel
  induction fuel with
  | zero =>
    intro k t hk _ _
    interval_cases k
    rfl
  | succ n ih =>
    intro k t hk hall hstop
    cases k with
    | zero =>
      rw [cool_count, if_neg]
      rw [pow_zero, mul_one] at hstop
      exact not_lt.mpr hstop
    | succ m =>
      have hg : CUTOFF < t := by
        have := hall 0 (Nat.succ_pos m)
        rwa [pow_zero, mul_one] at this
      rw [cool_count, if_pos hg]
      rw [ih m (t * COOLING_RATE) (Nat.lt_succ_iff.mp hk) ?_ ?_]
      · intro j hj
        have := hall (j + 1) (Nat.succ_lt_succ hj)
        rw [pow_succ] at this
        calc CUTOFF < t * (COOLING_RATE ^ j * COOLING_RATE) := this
          _ = t * COOLING_RATE * COOLING_RATE ^ j := by ring
      · have h1 : t * COOLING_RATE ^ (m + 1) ≤ CUTOFF := hstop
        rw [pow_succ] at h1
        calc t * COOLING_RATE * COOLING_RATE ^ m
            = t * (COOLING_RATE ^ m * COOLING_RATE) := by ring
          _ ≤ CUTOFF := h1

theorem qpow_low : CUTOFF < INITIAL_TEMPERATURE * COOLING_RATE ^ (1603 : ℕ) := by
  rw [CUTOFF, COOLING_RATE, INITIAL_TEMPERATURE]
  norm_num

theorem qpow_high : INITIAL_TEMPERATURE * COOLING_RATE ^ (1604 : ℕ) ≤ CUTOFF := by
  rw [CUTOFF, COOLING_RATE, INITIAL_TEMPERATURE]
  norm_num

theorem cool_count_eval : cool_count FUEL INITIAL_TEMPERATURE = 1604 := by
  apply cool_count_char FUEL 1604 INITIAL_TEMPERATURE (by rw [FUEL]; norm_num)
  · intro j hj
    calc CUTOFF < INITIAL_TEMPERATURE * COOLING_RATE ^ (1603 : ℕ) := qpow_low
      _ ≤ INITIAL_TEMPERATURE * COOLING_RATE ^ j := by
        have h0 : (0 : ℚ) ≤ COOLING_RATE := by norm_num [COOLING_RATE]
        have h1 : COOLING_RATE ≤ 1 := by norm_num [COOLING_RATE]
        exact mul_le_mul_of_nonneg_left
          (pow_le_pow_of_le_one h0 h1 (Nat.lt_succ_iff.mp hj))
          (by norm_num [INITIAL_TEMPERATURE])
  · exact qpow_high

theorem cool_temp_le_of_count_lt :
    ∀ (fuel : ℕ) (t : ℚ), cool_count fuel t < fuel → cool_temp fuel t ≤ CUTOFF := by
  intro fuel
  induction fuel with
  | zero => intro t h; exact absurd h (lt_irrefl _)
  | succ n ih =>
    intro t h
    rw [cool_temp]
    rw [cool_count] at h
    by_cases hg : CUTOFF < t
    · rw [if_pos hg]
      rw [if_pos hg] at h
      exact ih _ (Nat.lt_of_succ_lt_succ h)
    · rw [if_neg hg]
      exact not_lt.mp hg

theorem anneal_loop_iters_temp (dist : Color → Color → ℝ) (rng : ℕ → Fin 3 × ℝ × ℝ) :
    ∀ (fuel : ℕ) (t : ℚ) (ctr : ℕ) (sc : State × TotalCost),
      (anneal_loop dist rng fuel t ctr sc).iters = cool_count fuel t
      ∧ (anneal_loop dist rng fuel t ctr sc).temperature = cool_temp fuel t := by
  intro fuel
  induction fuel with
  | zero => intro t ctr sc; exact ⟨rfl, rfl⟩
  | succ n ih =>
    intro t ctr sc
    rw [anneal_loop, cool_count, cool_temp]
    by_cases h : CUTOFF < t
    · rw [if_pos h, if_pos h, if_pos h]
      constructor
      · show (anneal_loop dist rng n (t * COOLING_RATE)
            (sweep_go dist rng t sc.1.slot_count 0 ctr sc).ctr
            (sweep_go dist rng t sc.1.slot_count 0 ctr sc).sc).iters + 1
          = cool_count n (t * COOLING_RATE) + 1
        rw [(ih (t * COOLING_RATE) _ _).1]
      · show (anneal_loop dist rng n (t * COOLING_RATE)
            (sweep_go dist rng t sc.1.slot_count 0 ctr sc).ctr
            (sweep_go dist rng t sc.1.slot_count 0 ctr sc).sc).temperature
          = cool_temp n (t * COOLING_RATE)
        rw [(ih (t * COOLING_RATE) _ _).2]
    · rw [if_neg h, if_neg h, if_neg h]
      exact ⟨rfl, rfl⟩

/-- C4 (amended): with the fixed constants (initial temperature 1000.0,
cooling rate 0.99 applied multiplicatively once per full sweep, cutoff
0.0001) the optimizer always terminates — the final temperature is at or
below the cutoff — and for every distance oracle, RNG stream and start
palette it performs exactly 1604 sweeps, independent of palette size; 1604
is exactly ceil(ln(cutoff/initial) / ln(cooling_rate)), which is
approximately 1604, not 1146. -/
theorem optimize_eq (dist : Color → Color → ℝ) (rng : ℕ → Fin 3 × ℝ × ℝ) (s : State) :
    State.optimize dist rng s
      = anneal_loop dist rng FUEL INITIAL_TEMPERATURE 0 (s, s.total_cost dist) := rfl

theorem C4_sweep_count :
    (∀ (dist : Color → Color → ℝ) (rng : ℕ → Fin 3 × ℝ × ℝ) (s : State),
        (State.optimize dist rng s).iters = 1604
        ∧ (State.optimize dist rng s).temperature ≤ CUTOFF)
    ∧ ⌈Real.log ((CUTOFF : ℝ) / (INITIAL_TEMPERATURE : ℝ))
        / Real.log ((COOLING_RATE : ℝ))⌉ = 1604 := by
  constructor
  · intro dist rng s
    constructor
    · rw [optimize_eq,
        (anneal_loop_iters_temp dist rng FUEL INITIAL_TEMPERATURE 0 _).1, cool_count_eval]
    · rw [optimize_eq,
        (anneal_loop_iters_temp dist rng FUEL INITIAL_TEMPERATURE 0 _).2]
      apply cool_temp_le_of_count_lt
      rw [cool_count_eval, FUEL]
      norm_num
  · have hcut : ((CUTOFF : ℚ) : ℝ) = 1 / 10000 := by rw [CUTOFF]; push_cast; norm_num
    have hinit : ((INITIAL_TEMPERATURE : ℚ) : ℝ) = 1000 := by
      rw [INITIAL_TEMPERATURE]; push_cast; norm_num
    have hrate : ((COOLING_RATE : ℚ) : ℝ) = 99 / 100 := by
      rw [COOLING_RATE]; push_cast; norm_num
    rw [hcut, hinit, hrate,
      show (1 : ℝ) / 10000 / 1000 = 1 / 10 ^ 7 by norm_num]
    have hlograte : Real.log ((99 : ℝ) / 100) < 0 := Real.log_neg (by norm_num) (by norm_num)
    rw [Int.ceil_eq_iff]
    constructor
    · rw [lt_div_iff_of_neg hlograte]
      have hlow : Real.log ((1 : ℝ) / 10 ^ 7) < Real.log (((99 : ℝ) / 100) ^ (1603 : ℕ)) :=
        Real.log_lt_log (by norm_num) (by norm_num)
      rw [Real.log_pow] at hlow
      push_cast
      calc Real.log ((1 : ℝ) / 10 ^ 7)
          < (1603 : ℕ) * Real.log ((99 : ℝ) / 100) := hlow
        _ = ((1604 : ℝ) - 1) * Real.log ((99 : ℝ) / 100) := by norm_num
    · rw [div_le_iff_of_neg hlograte]
      have hhigh : Real.log (((99 : ℝ) / 100) ^ (1604 : ℕ)) ≤ Real.log ((1 : ℝ) / 10 ^ 7) :=
        Real.log_le_log (by positivity) (by norm_num)
      rw [Real.log_pow] at hhigh
      push_cast
      calc (1604 : ℝ) * Real.log ((99 : ℝ) / 100)
          = (1604 : ℕ) * Real.log ((99 : ℝ) / 100) := by norm_num
        _ ≤ Real.log ((1 : ℝ) / 10 ^ 7) := hhigh

/-- C4 counterexample: a concrete run of the optimizer performs 1604
sweeps; the claim's "approximately 1146" is wrong (1146 would correspond
to a cutoff-to-initial ratio of 1e-5, not the source's 1e-7). -/
theorem C4_sweep_count_cex :
    (State.optimize dist_zero rng_ce s0_ce).iters = 1604 ∧ (1604 : ℕ) ≠ 1146 := by
  constructor
  · rw [optimize_eq,
      (anneal_loop_iters_temp dist_zero rng_ce FUEL INITIAL_TEMPERATURE 0 _).1,
      cool_count_eval]
  · norm_num

theorem views_agree_new (bg : BackgroundColors) (fgs : List Color) :
    views_agree (State.new bg fgs) := rfl

theorem views_agree_set_sync (s : State) (i : ℕ) (c : Color) (h : views_agree s) :
    views_agree ((s.set_slot i c).sync_bg_slot i) := by
  rw [views_agree] at h
  rw [State.set_slot]
  by_cases hi : i < s.fg_colors.length
  · rw [if_pos hi]
    rw [State.sync_bg_slot]
    simp only [List.length_set]
    rw [if_pos hi]
    exact h
  · rw [if_neg hi]
    rw [State.sync_bg_slot]
    simp only
    rw [if_neg hi]
    rw [views_agree]
    simp only [BackgroundColors.update, BackgroundColors.updateable_array]
    rw [← h]
    cases hn : i - s.fg_colors.length with
    | zero => simp [BackgroundColors.updateable_array]
    | succ k => simp [BackgroundColors.updateable_array, List.set]

theorem anneal_step_views (dist : Color → Color → ℝ) (rnd : Fin 3 × ℝ × ℝ) (temp : ℚ)
    (sc : State × TotalCost) (i : ℕ) (h : views_agree sc.1) :
    views_agree (anneal_step dist rnd temp sc i).1.1
    ∧ views_agree (anneal_step dist rnd temp sc i).2.eval_state := by
  have hp : views_agree
      ((sc.1.set_slot i (random_nearby_color (sc.1.get_slot i) rnd.1 rnd.2.1)).sync_bg_slot i) :=
    views_agree_set_sync _ _ _ h
  simp only [anneal_step]
  split_ifs with hacc
  · exact ⟨hp, hp⟩
  · exact ⟨views_agree_set_sync _ _ _ hp, hp⟩

theorem sweep_go_views (dist : Color → Color → ℝ) (rng : ℕ → Fin 3 × ℝ × ℝ) (temp : ℚ) :
    ∀ (count i ctr : ℕ) (sc : State × TotalCost), views_agree sc.1 →
      (∀ o ∈ (sweep_go dist rng temp count i ctr sc).trace, views_agree o.eval_state)
      ∧ views_agree (sweep_go dist rng temp count i ctr sc).sc.1 := by
  intro count
  induction count with
  | zero =>
    intro i ctr sc h
    exact ⟨fun o ho => absurd ho (by simp [sweep_go]), h⟩
  | succ n ih =>
    intro i ctr sc h
    have hstep := anneal_step_views dist (rng ctr) temp sc i h
    have hrest := ih (i + 1) (ctr + 1) (anneal_step dist (rng ctr) temp sc i).1 hstep.1
    rw [sweep_go]
    simp only
    constructor
    · intro o ho
      rcases List.mem_cons.mp ho with h1 | h2
      · rw [h1]; exact hstep.2
      · exact hrest.1 o h2
    · exact hrest.2

theorem anneal_loop_views (dist : Color → Color → ℝ) (rng : ℕ → Fin 3 × ℝ × ℝ) :
    ∀ (fuel : ℕ) (t : ℚ) (ctr : ℕ) (sc : State × TotalCost), views_agree sc.1 →
      (∀ o ∈ (anneal_loop dist rng fuel t ctr sc).trace, views_agree o.eval_state)
      ∧ views_agree (anneal_loop dist rng fuel t ctr sc).sc.1 := by
  intro fuel
  induction fuel with
  | zero =>
    intro t ctr sc h
    exact ⟨fun o ho => absurd ho (by simp [anneal_loop]), h⟩
  | succ n ih =>
    intro t ctr sc h
    rw [anneal_loop]
    by_cases hg : CUTOFF < t
    · rw [if_pos hg]
      simp only
      have hsw := sweep_go_views dist rng t sc.1.slot_count 0 ctr sc h
      have hrest := ih (t * COOLING_RATE) (sweep_go dist rng t sc.1.slot_count 0 ctr sc).ctr
        (sweep_go dist rng t sc.1.slot_count 0 ctr sc).sc hsw.2
      constructor
      · intro o ho
        rcases List.mem_append.mp ho with h1 | h2
        · exact hsw.1 o h1
        · exact hrest.1 o h2
      · exact hrest.2
    · rw [if_neg hg]
      exact ⟨fun o ho => absurd ho (by simp), h⟩

/-- C5: the flat modifiable-background array and the semantic
background-slot structure agree at every cost evaluation of an
optimization run: `State::new` establishes the invariant; the
synchronization call after every perturbation and after every
rejection/rollback re-establishes it, so every state on which the
optimizer's `total_cost` is evaluated (the `eval_state` of each step
observation, plus the run's start and final states) satisfies the
agreement. -/
theorem C5_sync_invariant :
    (∀ (bg : BackgroundColors) (fgs : List Color), views_agree (State.new bg fgs))
    ∧ (∀ (s : State) (i : ℕ) (c : Color), views_agree s →
        views_agree ((s.set_slot i c).sync_bg_slot i))
    ∧ (∀ (dist : Color → Color → ℝ) (rng : ℕ → Fin 3 × ℝ × ℝ) (s : State),
        views_agree s →
          (∀ o ∈ (State.optimize dist rng s).trace, views_agree o.eval_state)
          ∧ views_agree (State.optimize dist rng s).sc.1) := by
  refine ⟨views_agree_new, views_agree_set_sync, ?_⟩
  intro dist rng s h
  rw [optimize_eq]
  exact anneal_loop_views dist rng FUEL INITIAL_TEMPERATURE 0 (s, s.total_cost dist) h

theorem C5_sync_invariant_witness :
    views_agree s0_ce
    ∧ ((∀ o ∈ (State.optimize dist_zero rng_ce s0_ce).trace, views_agree o.eval_state)
      ∧ views_agree (State.optimize dist_zero rng_ce s0_ce).sc.1) :=
  ⟨rfl, C5_sync_invariant.2.2 dist_zero rng_ce s0_ce rfl⟩

theorem ne_of_fst_ne {a b : Color} (h : a.1 ≠ b.1) : a ≠ b :=
  fun he => h (congrArg Prod.fst he)

theorem dist_ce_self (a : Color) : dist_ce a a = 0 := if_pos rfl

theorem dist_ce_of_ne {a b : Color} (h : a ≠ b) : dist_ce a b = 100 := if_neg h

theorem black_ne_white : ce_black ≠ ce_white :=
  ne_of_fst_ne (by rw [ce_black, ce_white]; norm_num)

theorem black_ne_p : ce_black ≠ ce_p :=
  ne_of_fst_ne (by rw [ce_black, ce_p]; norm_num)

theorem p_ne_white : ce_p ≠ ce_white :=
  ne_of_fst_ne (by rw [ce_p, ce_white]; norm_num)

theorem brettel_black_prot : brettel_function ce_black Vision.Protanopia = ce_black := by
  simp only [brettel_function, brettel, brettel_params, mat_vec, ce_black, srgb_to_linear_zero,
    mul_zero, zero_mul, add_zero, zero_add]
  simp [linear_to_srgb_zero]

theorem brettel_black_deut : brettel_function ce_black Vision.Deuteranopia = ce_black := by
  simp only [brettel_function, brettel, brettel_params, mat_vec, ce_black, srgb_to_linear_zero,
    mul_zero, zero_mul, add_zero, zero_add]
  simp [linear_to_srgb_zero]

theorem brettel_black_trit : brettel_function ce_black Vision.Tritanopia = ce_black := by
  simp only [brettel_function, brettel, brettel_params, mat_vec, ce_black, srgb_to_linear_zero,
    mul_zero, zero_mul, add_zero, zero_add]
  simp [linear_to_srgb_zero]

theorem brettel_white_prot : brettel_function ce_white Vision.Protanopia = ce_white := by
  simp only [brettel_function, brettel, brettel_params, mat_vec, ce_white, srgb_to_linear_one,
    mul_one, one_mul]
  rw [if_pos (by norm_num)]
  norm_num [linear_to_srgb_one]

theorem brettel_white_deut : brettel_function ce_white Vision.Deuteranopia = ce_white := by
  simp only [brettel_function, brettel, brettel_params, mat_vec, ce_white, srgb_to_linear_one,
    mul_one, one_mul]
  rw [if_pos (by norm_num)]
  norm_num [linear_to_srgb_one]

theorem trit_white_first : (brettel_function ce_white Vision.Tritanopia).1 = 1 := by
  simp only [brettel_function, brettel, brettel_params, mat_vec, ce_white, srgb_to_linear_one,
    mul_one, one_mul]
  rw [if_pos (by norm_num)]
  norm_num [linear_to_srgb_one]

theorem black_ne_trit_white : ce_black ≠ brettel_function ce_white Vision.Tritanopia := by
  apply ne_of_fst_ne
  rw [trit_white_first, ce_black]
  norm_num

theorem p_prot_first : 0 < (brettel_function ce_p Vision.Protanopia).1
    ∧ (brettel_function ce_p Vision.Protanopia).1 < 1 := by
  have ht0 := srgb_to_linear_p_pos
  have ht1 := srgb_to_linear_p_small
  simp only [brettel_function, brettel, brettel_params, mat_vec, ce_p, srgb_to_linear_zero,
    mul_zero, zero_mul, add_zero, zero_add]
  rw [if_pos (by nlinarith)]
  constructor
  · apply linear_to_srgb_pos
    nlinarith
  · apply linear_to_srgb_lt_one
    nlinarith

theorem p_deut_first : 0 < (brettel_function ce_p Vision.Deuteranopia).1
    ∧ (brettel_function ce_p Vision.Deuteranopia).1 < 1 := by
  have ht0 := srgb_to_linear_p_pos
  have ht1 := srgb_to_linear_p_small
  simp only [brettel_function, brettel, brettel_params, mat_vec, ce_p, srgb_to_linear_zero,
    mul_zero, zero_mul, add_zero, zero_add]
  rw [if_neg (by nlinarith)]
  constructor
  · apply linear_to_srgb_pos
    nlinarith
  · apply linear_to_srgb_lt_one
    nlinarith

theorem p_trit_first : 0 < (brettel_function ce_p Vision.Tritanopia).1
    ∧ (brettel_function ce_p Vision.Tritanopia).1 < 1 := by
  have ht0 := srgb_to_linear_p_pos
  have ht1 := srgb_to_linear_p_small
  simp only [brettel_function, brettel, brettel_params, mat_vec, ce_p, srgb_to_linear_zero,
    mul_zero, zero_mul, add_zero, zero_add]
  rw [if_pos (by nlinarith)]
  constructor
  · apply linear_to_srgb_pos
    nlinarith
  · apply linear_to_srgb_lt_one
    nlinarith

theorem black_ne_p_prot : ce_black ≠ brettel_function ce_p Vision.Protanopia := by
  apply ne_of_fst_ne
  rw [ce_black]
  exact fun h => absurd (h ▸ p_prot_first.1) (lt_irrefl _)

theorem black_ne_p_deut : ce_black ≠ brettel_function ce_p Vision.Deuteranopia := by
  apply ne_of_fst_ne
  rw [ce_black]
  exact fun h => absurd (h ▸ p_deut_first.1) (lt_irrefl _)

theorem black_ne_p_trit : ce_black ≠ brettel_function ce_p Vision.Tritanopia := by
  apply ne_of_fst_ne
  rw [ce_black]
  exact fun h => absurd (h ▸ p_trit_first.1) (lt_irrefl _)

theorem p_prot_ne_white : brettel_function ce_p Vision.Protanopia ≠ ce_white := by
  apply ne_of_fst_ne
  rw [ce_white]
  exact ne_of_lt p_prot_first.2

theorem p_deut_ne_white : brettel_function ce_p Vision.Deuteranopia ≠ ce_white := by
  apply ne_of_fst_ne
  rw [ce_white]
  exact ne_of_lt p_deut_first.2

theorem p_trit_ne_trit_white :
    brettel_function ce_p Vision.Tritanopia ≠ brettel_function ce_white Vision.Tritanopia := by
  apply ne_of_fst_ne
  rw [trit_white_first]
  exact ne_of_lt p_trit_first.2

theorem rmsd_single_100 : root_mean_square_distance 100 [100] = 0 := by
  simp only [root_mean_square_distance, List.map_cons, List.map_nil, List.sum_cons,
    List.sum_nil, List.length_cons, List.length_nil]
  norm_num

theorem rmsd_quad_mixed : root_mean_square_distance 100 [0, 100, 0, 100] = Real.sqrt 5000 := by
  simp only [root_mean_square_distance, List.map_cons, List.map_nil, List.sum_cons,
    List.sum_nil, List.length_cons, List.length_nil]
  norm_num

theorem rmsd_quad_100 : root_mean_square_distance 100 [100, 100, 100, 100] = 0 := by
  simp only [root_mean_square_distance, List.map_cons, List.map_nil, List.sum_cons,
    List.sum_nil, List.length_cons, List.length_nil]
  norm_num

theorem rms_pair_zero : root_mean_square [0, 0] = 0 := by
  simp only [root_mean_square, List.map_cons, List.map_nil, List.sum_cons,
    List.sum_nil, List.length_cons, List.length_nil]
  norm_num

theorem rms_single_zero : root_mean_square [0] = 0 := by
  simp only [root_mean_square, List.map_cons, List.map_nil, List.sum_cons,
    List.sum_nil, List.length_cons, List.length_nil]
  norm_num

theorem rms_pair_100_0 : root_mean_square [100, 0] = Real.sqrt 5000 := by
  simp only [root_mean_square, List.map_cons, List.map_nil, List.sum_cons,
    List.sum_nil, List.length_cons, List.length_nil]
  norm_num

theorem mmm_single (x : ℝ) : max_minus_min [x] = 0 := by
  rw [max_minus_min]
  simp

theorem go_cons (dist : Color → Color → ℝ) (c x : Color) (xs : List Color) (best : ℝ)
    (out : Option Color) :
    get_closest_color_go dist c (x :: xs) best out
      = if dist c x < best then get_closest_color_go dist c xs (dist c x) (some x)
        else get_closest_color_go dist c xs best out := rfl

theorem closest_black_fg : get_closest_color dist_ce ce_black [ce_black, ce_white]
    = some ce_black := by
  rw [get_closest_color, go_cons, dist_ce_self, if_pos (by norm_num : (0:ℝ) < 1e10),
    go_cons, dist_ce_of_ne black_ne_white, if_neg (by norm_num : ¬ (100:ℝ) < 0)]
  rfl

theorem closest_white_fg : get_closest_color dist_ce ce_white [ce_black, ce_white]
    = some ce_white := by
  rw [get_closest_color, go_cons, dist_ce_of_ne (Ne.symm black_ne_white),
    if_pos (by norm_num : (100:ℝ) < 1e10),
    go_cons, dist_ce_self, if_pos (by norm_num : (0:ℝ) < 100)]
  rfl

theorem closest_p_fg : get_closest_color dist_ce ce_p [ce_black, ce_white]
    = some ce_black := by
  rw [get_closest_color, go_cons, dist_ce_of_ne (Ne.symm black_ne_p),
    if_pos (by norm_num : (100:ℝ) < 1e10),
    go_cons, dist_ce_of_ne p_ne_white, if_neg (by norm_num : ¬ (100:ℝ) < 100)]
  rfl

theorem closest_black_bg : get_closest_color dist_ce ce_black [ce_black]
    = some ce_black := by
  rw [get_closest_color, go_cons, dist_ce_self, if_pos (by norm_num : (0:ℝ) < 1e10)]
  rfl

theorem dcb_bad_pair (s : State) (v : Vision) (a b : Color)
    (hbg : s.bg_colors.into_array.map (fun c => brettel_function c v) = [a, a])
    (hfg : s.fg_colors.map (fun c => brettel_function c v) = [a, b])
    (hne : a ≠ b) :
    State.distance_cost_buf dist_ce s v = (Real.sqrt 5000 * (1 / 5), [100]) := by
  rw [State.distance_cost_buf]
  rw [hbg, hfg]
  rw [show fg_mutual_distances dist_ce [a, b] = [dist_ce a b] from rfl]
  rw [dist_ce_of_ne hne]
  rw [show bg_to_fg_distances dist_ce [a, a] [a, b]
      = [dist_ce a a, dist_ce a b, dist_ce a a, dist_ce a b] from rfl]
  rw [dist_ce_self, dist_ce_of_ne hne]
  rw [rmsd_single_100, rmsd_quad_mixed]
  rw [DISTANCE_FG_WEIGHT, DISTANCE_BG_WEIGHT]
  norm_num

theorem dcb_good_pair (s : State) (v : Vision) (a b c : Color)
    (hbg : s.bg_colors.into_array.map (fun x => brettel_function x v) = [a, a])
    (hfg : s.fg_colors.map (fun x => brettel_function x v) = [b, c])
    (hab : a ≠ b) (hac : a ≠ c) (hbc : b ≠ c) :
    State.distance_cost_buf dist_ce s v = (0, [100]) := by
  rw [State.distance_cost_buf]
  rw [hbg, hfg]
  rw [show fg_mutual_distances dist_ce [b, c] = [dist_ce b c] from rfl]
  rw [dist_ce_of_ne hbc]
  rw [show bg_to_fg_distances dist_ce [a, a] [b, c]
      = [dist_ce a b, dist_ce a c, dist_ce a b, dist_ce a c] from rfl]
  rw [dist_ce_of_ne hab, dist_ce_of_ne hac]
  rw [rmsd_single_100, rmsd_quad_100]
  rw [DISTANCE_FG_WEIGHT, DISTANCE_BG_WEIGHT]
  norm_num

theorem dcb_s0_default : State.distance_cost_buf dist_ce s0_ce Vision.Default
    = (Real.sqrt 5000 * (1 / 5), [100]) :=
  dcb_bad_pair s0_ce Vision.Default ce_black ce_white rfl rfl black_ne_white

theorem dcb_s0_prot : State.distance_cost_buf dist_ce s0_ce Vision.Protanopia
    = (Real.sqrt 5000 * (1 / 5), [100]) := by
  apply dcb_bad_pair s0_ce Vision.Protanopia ce_black ce_white ?_ ?_ black_ne_white
  · rw [show s0_ce.bg_colors.into_array = [ce_black, ce_black] from rfl]
    simp only [List.map_cons, List.map_nil, brettel_black_prot]
  · rw [show s0_ce.fg_colors = [ce_black, ce_white] from rfl]
    simp only [List.map_cons, List.map_nil, brettel_black_prot, brettel_white_prot]

theorem dcb_s0_deut : State.distance_cost_buf dist_ce s0_ce Vision.Deuteranopia
    = (Real.sqrt 5000 * (1 / 5), [100]) := by
  apply dcb_bad_pair s0_ce Vision.Deuteranopia ce_black ce_white ?_ ?_ black_ne_white
  · rw [show s0_ce.bg_colors.into_array = [ce_black, ce_black] from rfl]
    simp only [List.map_cons, List.map_nil, brettel_black_deut]
  · rw [show s0_ce.fg_colors = [ce_black, ce_white] from rfl]
    simp only [List.map_cons, List.map_nil, brettel_black_deut, brettel_white_deut]

theorem dcb_s0_trit : State.distance_cost_buf dist_ce s0_ce Vision.Tritanopia
    = (Real.sqrt 5000 * (1 / 5), [100]) := by
  apply dcb_bad_pair s0_ce Vision.Tritanopia ce_black
    (brettel_function ce_white Vision.Tritanopia) ?_ ?_ black_ne_trit_white
  · rw [show s0_ce.bg_colors.into_array = [ce_black, ce_black] from rfl]
    simp only [List.map_cons, List.map_nil, brettel_black_trit]
  · rw [show s0_ce.fg_colors = [ce_black, ce_white] from rfl]
    simp only [List.map_cons, List.map_nil, brettel_black_trit]

theorem dcb_s1_default : State.distance_cost_buf dist_ce s1_ce Vision.Default
    = (0, [100]) :=
  dcb_good_pair s1_ce Vision.Default ce_black ce_p ce_white rfl rfl
    black_ne_p black_ne_white p_ne_white

theorem dcb_s1_prot : State.distance_cost_buf dist_ce s1_ce Vision.Protanopia
    = (0, [100]) := by
  apply dcb_good_pair s1_ce Vision.Protanopia ce_black
    (brettel_function ce_p Vision.Protanopia) ce_white ?_ ?_
    black_ne_p_prot black_ne_white p_prot_ne_white
  · rw [show s1_ce.bg_colors.into_array = [ce_black, ce_black] from rfl]
    simp only [List.map_cons, List.map_nil, brettel_black_prot]
  · rw [show s1_ce.fg_colors = [ce_p, ce_white] from rfl]
    simp only [List.map_cons, List.map_nil, brettel_white_prot]

theorem dcb_s1_deut : State.distance_cost_buf dist_ce s1_ce Vision.Deuteranopia
    = (0, [100]) := by
  apply dcb_good_pair s1_ce Vision.Deuteranopia ce_black
    (brettel_function ce_p Vision.Deuteranopia) ce_white ?_ ?_
    black_ne_p_deut black_ne_white p_deut_ne_white
  · rw [show s1_ce.bg_colors.into_array = [ce_black, ce_black] from rfl]
    simp only [List.map_cons, List.map_nil, brettel_black_deut]
  · rw [show s1_ce.fg_colors = [ce_p, ce_white] from rfl]
    simp only [List.map_cons, List.map_nil, brettel_white_deut]

theorem dcb_s1_trit : State.distance_cost_buf dist_ce s1_ce Vision.Tritanopia
    = (0, [100]) := by
  apply dcb_good_pair s1_ce Vision.Tritanopia ce_black
    (brettel_function ce_p Vision.Tritanopia)
    (brettel_function ce_white Vision.Tritanopia) ?_ ?_
    black_ne_p_trit black_ne_trit_white p_trit_ne_trit_white
  · rw [show s1_ce.bg_colors.into_array = [ce_black, ce_black] from rfl]
    simp only [List.map_cons, List.map_nil, brettel_black_trit]
  · rw [show s1_ce.fg_colors = [ce_p, ce_white] from rfl]
    simp only [List.map_cons, List.map_nil]

theorem target_s0 : State.target_cost dist_ce s0_ce = 0 := by
  rw [State.target_cost]
  rw [show s0_ce.fg_colors = [ce_black, ce_white] from rfl,
    show s0_ce.target_fg_colors = [ce_black, ce_white] from rfl,
    show s0_ce.bg_color_array = [ce_black] from rfl,
    show s0_ce.target_bg_colors = [ce_black] from rfl]
  simp only [List.map_cons, List.map_nil]
  rw [closest_black_fg, closest_white_fg, closest_black_bg]
  simp only [Option.getD_some]
  rw [dist_ce_self, dist_ce_self]
  rw [rms_pair_zero, rms_single_zero]
  norm_num

theorem target_s1 : State.target_cost dist_ce s1_ce = Real.sqrt 5000 * (9 / 10) := by
  rw [State.target_cost]
  rw [show s1_ce.fg_colors = [ce_p, ce_white] from rfl,
    show s1_ce.target_fg_colors = [ce_black, ce_white] from rfl,
    show s1_ce.bg_color_array = [ce_black] from rfl,
    show s1_ce.target_bg_colors = [ce_black] from rfl]
  simp only [List.map_cons, List.map_nil]
  rw [closest_p_fg, closest_white_fg, closest_black_bg]
  simp only [Option.getD_some]
  rw [dist_ce_of_ne (Ne.symm black_ne_p), dist_ce_self, dist_ce_self]
  rw [rms_pair_100_0, rms_single_zero]
  rw [TARGET_FG_WEIGHT, TARGET_BG_WEIGHT]
  ring_nf

theorem t0_eval : (State.total_cost dist_ce s0_ce).total = Real.sqrt 5000 * (199 / 500) := by
  rw [State.total_cost]
  rw [dcb_s0_default, dcb_s0_prot, dcb_s0_deut, dcb_s0_trit, target_s0]
  rw [TotalCost.total]
  dsimp only
  rw [mmm_single]
  rw [DISTANCE_WEIGHT, RANGE_WEIGHT, TARGET_WEIGHT, PROTANOPIA_WEIGHT,
    DEUTERANOPIA_WEIGHT, TRITANOPIA_WEIGHT]
  ring_nf

theorem t1_eval : (State.total_cost dist_ce s1_ce).total = Real.sqrt 5000 * (9 / 10) := by
  rw [State.total_cost]
  rw [dcb_s1_default, dcb_s1_prot, dcb_s1_deut, dcb_s1_trit, target_s1]
  rw [TotalCost.total]
  dsimp only
  rw [mmm_single]
  rw [DISTANCE_WEIGHT, RANGE_WEIGHT, TARGET_WEIGHT, PROTANOPIA_WEIGHT,
    DEUTERANOPIA_WEIGHT, TRITANOPIA_WEIGHT]
  ring_nf

theorem anneal_step_obs (dist : Color → Color → ℝ) (rnd : Fin 3 × ℝ × ℝ)
    (temperature : ℚ) (sc : State × TotalCost) (i : ℕ) :
    (anneal_step dist rnd temperature sc i).2
      = ⟨(sc.1.set_slot i (random_nearby_color (sc.1.get_slot i) rnd.1 rnd.2.1)).sync_bg_slot i,
         sc.2.total,
         (((sc.1.set_slot i
             (random_nearby_color (sc.1.get_slot i) rnd.1 rnd.2.1)).sync_bg_slot i).total_cost
           dist).total,
         accept_decision rnd.2.2
           ((((sc.1.set_slot i
               (random_nearby_color (sc.1.get_slot i) rnd.1 rnd.2.1)).sync_bg_slot i).total_cost
             dist).total - sc.2.total) temperature⟩ := by
  simp only [anneal_step]
  split_ifs <;> rfl

theorem rnc_ce : random_nearby_color ce_black 0 (1 / 20) = ce_p := by
  have h00 : triple_to_array ce_black 0 = 0 := by simp [triple_to_array, ce_black]
  have h01 : triple_to_array ce_black 1 = 0 := by simp [triple_to_array, ce_black]
  have h02 : triple_to_array ce_black 2 = 0 := by simp [triple_to_array, ce_black]
  simp only [random_nearby_color, array_to_triple]
  rw [Function.update_same, Function.update_noteq (by decide), Function.update_noteq (by decide)]
  rw [h00, h01, h02]
  rw [show ((0 : ℝ) + 1 / 20) = 1 / 20 by norm_num]
  rw [max_eq_left (by norm_num : (0 : ℝ) ≤ 1 / 20),
    min_eq_left (by norm_num : (1 / 20 : ℝ) ≤ 1)]
  rfl

theorem perturb_ce :
    ((s0_ce.set_slot 0 (random_nearby_color (s0_ce.get_slot 0) (rng_ce 0).1
      (rng_ce 0).2.1)).sync_bg_slot 0) = s1_ce := by
  rw [show (rng_ce 0).1 = (0 : Fin 3) from rfl, show (rng_ce 0).2.1 = (1 / 20 : ℝ) from rfl]
  rw [show s0_ce.get_slot 0 = ce_black from rfl]
  rw [rnc_ce]
  rfl

theorem accept_ce :
    accept_decision 0 (Real.sqrt 5000 * (9 / 10) - Real.sqrt 5000 * (199 / 500))
      INITIAL_TEMPERATURE = true := by
  rw [accept_decision, acceptance_probability, if_pos (Real.exp_pos _)]

theorem step_obs_ce :
    (anneal_step dist_ce (rng_ce 0) INITIAL_TEMPERATURE
        (s0_ce, State.total_cost dist_ce s0_ce) 0).2
      = ⟨s1_ce, Real.sqrt 5000 * (199 / 500), Real.sqrt 5000 * (9 / 10), true⟩ := by
  rw [anneal_step_obs]
  rw [show (s0_ce, State.total_cost dist_ce s0_ce).1 = s0_ce from rfl,
    show (s0_ce, State.total_cost dist_ce s0_ce).2 = State.total_cost dist_ce s0_ce from rfl]
  rw [perturb_ce]
  rw [t0_eval, t1_eval]
  rw [show (rng_ce 0).2.2 = (0 : ℝ) from rfl]
  rw [accept_ce]

theorem trace_head_ce :
    ∃ rest, (State.optimize dist_ce rng_ce s0_ce).trace
      = (anneal_step dist_ce (rng_ce 0) INITIAL_TEMPERATURE
          (s0_ce, State.total_cost dist_ce s0_ce) 0).2 :: rest := by
  rw [optimize_eq]
  rw [show FUEL = 1999 + 1 from rfl]
  rw [anneal_loop]
  rw [if_pos (show CUTOFF < INITIAL_TEMPERATURE by
    rw [CUTOFF, INITIAL_TEMPERATURE]; norm_num)]
  dsimp only
  rw [show (s0_ce, State.total_cost dist_ce s0_ce).1.slot_count = 2 + 1 from rfl]
  rw [sweep_go]
  dsimp only
  rw [List.cons_append]
  exact ⟨_, rfl⟩

/-- C3 counterexample: on the two-color palette (black, white) over an
all-black background, with the metric that scores 0 for equal colors and
100 otherwise, the first RNG record perturbs foreground slot 0 from black
to (0.05, 0, 0) with acceptance draw 0.  The move is accepted even though
it raises the total cost from sqrt(5000)*199/500 to sqrt(5000)*9/10
(Metropolis accepts uphill moves), so the recorded sequence of
`old_cost.total()` values already fails to be non-increasing at its first
two entries — refuting the claim that it is non-increasing over the run. -/
theorem C3_recorded_not_monotone_cex :
    ¬ List.Chain' (fun a b : ℝ => b ≤ a) (recorded_totals dist_ce rng_ce s0_ce) := by
  intro hch
  rw [recorded_totals] at hch
  obtain ⟨rest, hrest⟩ := trace_head_ce
  rw [hrest, step_obs_ce] at hch
  rw [State.optimize_start_total, t0_eval] at hch
  rw [List.filter_cons_of_pos (by rfl)] at hch
  rw [List.map_cons] at hch
  have h2 := (List.chain'_cons.mp hch).1
  have hpos : 0 < Real.sqrt 5000 := Real.sqrt_pos.mpr (by norm_num)
  dsimp only at h2
  nlinarith

theorem end_total_append (cur : ℝ) (l1 l2 : List StepObs) :
    end_total cur (l1 ++ l2) = end_total (end_total cur l1) l2 := by
  rw [end_total, end_total, end_total, List.foldl_append]

theorem traceWF_append (l1 l2 : List StepObs) :
    ∀ cur, TraceWF cur l1 → TraceWF (end_total cur l1) l2 → TraceWF cur (l1 ++ l2) := by
  induction l1 with
  | nil =>
    intro cur _ h2
    rw [List.nil_append]
    exact h2
  | cons o rest ih =>
    intro cur h1 h2
    obtain ⟨ho, hrest⟩ := h1
    rw [List.cons_append, TraceWF]
    refine ⟨ho, ih _ hrest ?_⟩
    rw [show end_total (if o.accepted then o.new_total else cur) rest
        = end_total cur (o :: rest) from rfl]
    exact h2

theorem anneal_step_wf (dist : Color → Color → ℝ) (rnd : Fin 3 × ℝ × ℝ)
    (temperature : ℚ) (sc : State × TotalCost) (i : ℕ) :
    (anneal_step dist rnd temperature sc i).2.old_total_before = sc.2.total
    ∧ (anneal_step dist rnd temperature sc i).1.2.total
      = (if (anneal_step dist rnd temperature sc i).2.accepted then
          (anneal_step dist rnd temperature sc i).2.new_total else sc.2.total) := by
  simp only [anneal_step]
  split_ifs with hacc
  · exact ⟨rfl, rfl⟩
  · exact ⟨rfl, rfl⟩

theorem sweep_go_wf (dist : Color → Color → ℝ) (rng : ℕ → Fin 3 × ℝ × ℝ)
    (temperature : ℚ) :
    ∀ (count i ctr : ℕ) (sc : State × TotalCost),
      TraceWF sc.2.total (sweep_go dist rng temperature count i ctr sc).trace
      ∧ (sweep_go dist rng temperature count i ctr sc).sc.2.total
        = end_total sc.2.total (sweep_go dist rng temperature count i ctr sc).trace := by
  intro count
  induction count with
  | zero => intro i ctr sc; exact ⟨trivial, rfl⟩
  | succ n ih =>
    intro i ctr sc
    rw [sweep_go]
    constructor
    · rw [TraceWF]
      refine ⟨(anneal_step_wf dist (rng ctr) temperature sc i).1, ?_⟩
      rw [← (anneal_step_wf dist (rng ctr) temperature sc i).2]
      exact (ih (i + 1) (ctr + 1) (anneal_step dist (rng ctr) temperature sc i).1).1
    · rw [show end_total sc.2.total
          ((anneal_step dist (rng ctr) temperature sc i).2
            :: (sweep_go dist rng temperature n (i + 1) (ctr + 1)
                (anneal_step dist (rng ctr) temperature sc i).1).trace)
          = end_total
              (if (anneal_step dist (rng ctr) temperature sc i).2.accepted then
                (anneal_step dist (rng ctr) temperature sc i).2.new_total else sc.2.total)
              (sweep_go dist rng temperature n (i + 1) (ctr + 1)
                (anneal_step dist (rng ctr) temperature sc i).1).trace from rfl]
      rw [← (anneal_step_wf dist (rng ctr) temperature sc i).2]
      exact (ih (i + 1) (ctr + 1) (anneal_step dist (rng ctr) temperature sc i).1).2

theorem anneal_loop_wf (dist : Color → Color → ℝ) (rng : ℕ → Fin 3 × ℝ × ℝ) :
    ∀ (fuel : ℕ) (t : ℚ) (ctr : ℕ) (sc : State × TotalCost),
      TraceWF sc.2.total (anneal_loop dist rng fuel t ctr sc).trace
      ∧ (anneal_loop dist rng fuel t ctr sc).sc.2.total
        = end_total sc.2.total (anneal_loop dist rng fuel t ctr sc).trace := by
  intro fuel
  induction fuel with
  | zero => intro t ctr sc; exact ⟨trivial, rfl⟩
  | succ n ih =>
    intro t ctr sc
    rw [anneal_loop]
    by_cases h : CUTOFF < t
    · rw [if_pos h]
      constructor
      · apply traceWF_append
        · exact (sweep_go_wf dist rng t sc.1.slot_count 0 ctr sc).1
        · rw [← (sweep_go_wf dist rng t sc.1.slot_count 0 ctr sc).2]
          exact (ih (t * COOLING_RATE) (sweep_go dist rng t sc.1.slot_count 0 ctr sc).ctr
            (sweep_go dist rng t sc.1.slot_count 0 ctr sc).sc).1
      · rw [end_total_append, ← (sweep_go_wf dist rng t sc.1.slot_count 0 ctr sc).2]
        exact (ih (t * COOLING_RATE) (sweep_go dist rng t sc.1.slot_count 0 ctr sc).ctr
          (sweep_go dist rng t sc.1.slot_count 0 ctr sc).sc).2
    · rw [if_neg h]
      exact ⟨trivial, rfl⟩

theorem chain_of_wf :
    ∀ (l : List StepObs) (start : ℝ), TraceWF start l →
      (∀ o ∈ l, o.accepted = true → o.new_total ≤ o.old_total_before) →
      List.Chain' (fun a b : ℝ => b ≤ a)
        (start :: (l.filter (fun o => o.accepted)).map (fun o => o.new_total)) := by
  intro l
  induction l with
  | nil =>
    intro start _ _
    simp
  | cons o rest ih =>
    intro start hwf hmono
    obtain ⟨ho, hrest⟩ := hwf
    by_cases hacc : o.accepted = true
    · rw [List.filter_cons_of_pos (by simpa using hacc), List.map_cons, List.chain'_cons]
      constructor
      · exact ho ▸ hmono o (List.mem_cons_self o rest) hacc
      · apply ih o.new_total
        · rwa [if_pos hacc] at hrest
        · intro x hx hxa
          exact hmono x (List.mem_cons_of_mem _ hx) hxa
    · rw [List.filter_cons_of_neg (by simpa using hacc)]
      apply ih start
      · rwa [if_neg hacc] at hrest
      · intro x hx hxa
        exact hmono x (List.mem_cons_of_mem _ hx) hxa

/-- C3 (amended): the recorded `old_cost.total()` sequence of a run is NOT
non-increasing in general — Metropolis acceptance takes uphill moves (see
the counterexample).  What does hold: every run's observation trace is
well-formed (each step observes as `old_cost` the running recorded total,
which is replaced by the step's new total exactly on acceptance), and for
any well-formed trace in which every ACCEPTED step is non-worsening, the
recorded sequence — the start total followed by the accepted steps' new
totals, which is exactly `recorded_totals` for a run — is non-increasing. -/
theorem C3_recorded_totals (dist : Color → Color → ℝ) (rng : ℕ → Fin 3 × ℝ × ℝ)
    (s : State) :
    TraceWF (State.optimize_start_total dist s) (State.optimize dist rng s).trace
    ∧ (∀ (start : ℝ) (l : List StepObs), TraceWF start l →
        (∀ o ∈ l, o.accepted = true → o.new_total ≤ o.old_total_before) →
        List.Chain' (fun a b : ℝ => b ≤ a)
          (start :: (l.filter (fun o => o.accepted)).map (fun o => o.new_total))) := by
  constructor
  · rw [State.optimize_start_total, optimize_eq]
    exact (anneal_loop_wf dist rng FUEL INITIAL_TEMPERATURE 0 (s, s.total_cost dist)).1
  · exact fun start l hwf hmono => chain_of_wf l start hwf hmono

theorem C3_recorded_totals_witness :
    TraceWF (State.optimize_start_total dist_zero s0_ce)
        (State.optimize dist_zero rng_ce s0_ce).trace
    ∧ List.Chain' (fun a b : ℝ => b ≤ a)
        ((5 : ℝ) :: (([⟨s1_ce, 5, 4, true⟩] : List StepObs).filter
            (fun o => o.accepted)).map (fun o => o.new_total)) :=
  ⟨(C3_recorded_totals dist_zero rng_ce s0_ce).1,
   (C3_recorded_totals dist_zero rng_ce s0_ce).2 5 [⟨s1_ce, 5, 4, true⟩]
     ⟨rfl, trivial⟩
     (fun o ho _ => by
        rw [List.mem_singleton] at ho
        subst ho
        show (4 : ℝ) ≤ 5
        norm_num)⟩

end
